import Mathlib

/-!
# Pair selection (`pairselection.hxx`): a shallow embedding and its properties

The embedding follows `src/pairselection.hxx`.

* A `ROOT::RVec<T>` is a `List`; an index of type `size_t` or `UInt_t` is a `Nat`.
* `RVec::operator[]` does not check its index.  Reading or writing outside a
  vector is undefined behaviour in C++; here every such access yields `none`,
  so `Option` carries the "index out of range" outcome through the algorithm.
* A `float` is an element of a linearly ordered ring `R` (`ℤ` and `ℚ` are
  instances): comparison and the factor `-1.` are exact on finite values.
  NaN and the infinities are outside the model.
* `utility::ApproxEqual` (`utility/utility.hxx`) is not part of the sources, so
  the comparator takes the closeness test as its first argument `approxEq`.
* The logger calls have no effect on the result and are left out.
-/

namespace stdsort

/-!
## `std::sort`

`ROOT::VecOps::Sort(v, c)` copies `v` and calls `std::sort(r.begin(), r.end(), c)`.
The functions below follow libstdc++ (`bits/stl_algo.h`, `bits/stl_heap.h`):
an iterator is an index into the whole vector, the vector is passed along as
state, and the comparison may fail (`none`) when it reads outside a vector.
-/

variable {α : Type}

/-- A checked write `v[i] = x`. -/
def assign (v : List α) (i : Nat) (x : α) : Option (List α) :=
  if i < v.length then some (v.set i x) else none

/-- The call `std::iter_swap(a, b)`. -/
def iter_swap (v : List α) (a b : Nat) : Option (List α) :=
  match v[a]?, v[b]? with
  | some x, some y => some ((v.set a y).set b x)
  | _, _ => none

/-- The loop of `__unguarded_linear_insert`: the first argument is `__last`,
`__next` is one below it.  Nothing stops `__next` at the front of the vector. -/
def unguarded_linear_insert_loop (comp : α → α → Option Bool) (val : α) :
    Nat → List α → Option (List α)
  | 0, _ => none
  | next + 1, v =>
    match v[next]? with
    | none => none
    | some x =>
      match comp val x with
      | none => none
      | some true =>
        match assign v (next + 1) x with
        | none => none
        | some w => unguarded_linear_insert_loop comp val next w
      | some false => assign v (next + 1) val

/-- The function `__unguarded_linear_insert(__last, __comp)`. -/
def unguarded_linear_insert (comp : α → α → Option Bool) (last : Nat) (v : List α) :
    Option (List α) :=
  match v[last]? with
  | none => none
  | some val => unguarded_linear_insert_loop comp val last v

/-- The first branch in the loop of `__insertion_sort`: `*__i` is saved, the range
`[__first, __i)` is moved one place up by `move_backward`, and the saved value is
stored at `__first`. -/
def move_to_first (v : List α) (first i : Nat) : Option (List α) :=
  match v[i]? with
  | none => none
  | some val =>
    if first ≤ i then
      some (v.take first ++ val :: ((v.drop first).take (i - first) ++ v.drop (i + 1)))
    else none

/-- The `for` loop of `__insertion_sort`, with `n` iterations left and `__i = i`. -/
def insertion_sort_loop (comp : α → α → Option Bool) (first : Nat) :
    Nat → Nat → List α → Option (List α)
  | 0, _, v => some v
  | n + 1, i, v =>
    match v[i]?, v[first]? with
    | some x, some y =>
      match comp x y with
      | none => none
      | some true =>
        match move_to_first v first i with
        | none => none
        | some w => insertion_sort_loop comp first n (i + 1) w
      | some false =>
        match unguarded_linear_insert comp i v with
        | none => none
        | some w => insertion_sort_loop comp first n (i + 1) w
    | _, _ => none

/-- The function `__insertion_sort(__first, __last, __comp)`. -/
def insertion_sort (comp : α → α → Option Bool) (first last : Nat) (v : List α) :
    Option (List α) :=
  if first = last then some v
  else insertion_sort_loop comp first (last - (first + 1)) (first + 1) v

/-- The function `__unguarded_insertion_sort(__first, __last, __comp)`, with `n`
iterations left and `__i = i`. -/
def unguarded_insertion_sort (comp : α → α → Option Bool) :
    Nat → Nat → List α → Option (List α)
  | 0, _, v => some v
  | n + 1, i, v =>
    match unguarded_linear_insert comp i v with
    | none => none
    | some w => unguarded_insertion_sort comp n (i + 1) w

/-- The constant `_S_threshold`. -/
def S_threshold : Nat := 16

/-- The function `__final_insertion_sort(__first, __last, __comp)`. -/
def final_insertion_sort (comp : α → α → Option Bool) (first last : Nat) (v : List α) :
    Option (List α) :=
  if last - first > S_threshold then
    match insertion_sort comp first (first + S_threshold) v with
    | none => none
    | some w =>
      unguarded_insertion_sort comp (last - (first + S_threshold)) (first + S_threshold) w
  else insertion_sort comp first last v

/-- The function `__move_median_to_first(__result, __a, __b, __c, __comp)`. -/
def move_median_to_first (comp : α → α → Option Bool) (v : List α)
    (result a b c : Nat) : Option (List α) :=
  match v[a]?, v[b]?, v[c]? with
  | some va, some vb, some vc =>
    match comp va vb with
    | none => none
    | some true =>
      match comp vb vc with
      | none => none
      | some true => iter_swap v result b
      | some false =>
        match comp va vc with
        | none => none
        | some true => iter_swap v result c
        | some false => iter_swap v result a
    | some false =>
      match comp va vc with
      | none => none
      | some true => iter_swap v result a
      | some false =>
        match comp vb vc with
        | none => none
        | some true => iter_swap v result c
        | some false => iter_swap v result b
  | _, _, _ => none

/-- The loop `while (__comp(__first, __pivot)) ++__first;` of `__unguarded_partition`,
run over the elements from `__first` on; it fails when it leaves the vector. -/
def scan_up (comp : α → α → Option Bool) (p : α) : List α → Nat → Option Nat
  | [], _ => none
  | x :: rest, first =>
    match comp x p with
    | none => none
    | some true => scan_up comp p rest (first + 1)
    | some false => some first

/-- The statements `--__last; while (__comp(__pivot, __last)) --__last;` of
`__unguarded_partition`; the argument is `__last` before the first decrement. -/
def scan_down (comp : α → α → Option Bool) (v : List α) (p : α) : Nat → Option Nat
  | 0 => none
  | last + 1 =>
    match v[last]? with
    | none => none
    | some x =>
      match comp p x with
      | none => none
      | some true => scan_down comp v p last
      | some false => some last

/-- The function `__unguarded_partition(__first, __last, __pivot, __comp)`.  Every
turn of its outer loop lowers `__last`, so it is run with `bound = __last`; at
`bound = 0` the decrement of `__last` leaves the vector. -/
def unguarded_partition (comp : α → α → Option Bool) (pivot : Nat) :
    Nat → List α → Nat → Nat → Option (Nat × List α)
  | 0, _, _, _ => none
  | bound + 1, v, first, last =>
    match v[pivot]? with
    | none => none
    | some p =>
      match scan_up comp p (v.drop first) first with
      | none => none
      | some first1 =>
        match scan_down comp v p last with
        | none => none
        | some last1 =>
          if first1 < last1 then
            match iter_swap v first1 last1 with
            | none => none
            | some w => unguarded_partition comp pivot bound w (first1 + 1) last1
          else some (first1, v)

/-- The function `__unguarded_partition_pivot(__first, __last, __comp)`. -/
def unguarded_partition_pivot (comp : α → α → Option Bool) (v : List α)
    (first last : Nat) : Option (Nat × List α) :=
  let mid := first + (last - first) / 2
  match move_median_to_first comp v first (first + 1) mid (last - 1) with
  | none => none
  | some w => unguarded_partition comp first last w (first + 1) last

/-- The function `__push_heap(__first, __holeIndex, __topIndex, __value, __comp)`.
Every turn of its loop lowers `__holeIndex`, so it is run with
`bound = __holeIndex`; at `bound = 0` the test `__holeIndex > __topIndex` fails. -/
def push_heap (comp : α → α → Option Bool) (first topIndex : Nat) (value : α) :
    Nat → List α → Nat → Option (List α)
  | 0, v, holeIndex => assign v (first + holeIndex) value
  | bound + 1, v, holeIndex =>
    if holeIndex > topIndex then
      match v[first + (holeIndex - 1) / 2]? with
      | none => none
      | some x =>
        match comp x value with
        | none => none
        | some true =>
          match assign v (first + holeIndex) x with
          | none => none
          | some w => push_heap comp first topIndex value bound w ((holeIndex - 1) / 2)
        | some false => assign v (first + holeIndex) value
    else assign v (first + holeIndex) value

/-- The `while` loop of `__adjust_heap`; it returns the vector, `__holeIndex` and
`__secondChild`.  Every turn raises `__secondChild`, so `bound = __len` turns are
enough to reach `__secondChild >= (__len - 1) / 2`. -/
def adjust_heap_loop (comp : α → α → Option Bool) (first len : Nat) :
    Nat → List α → Nat → Nat → Option (List α × Nat × Nat)
  | 0, v, holeIndex, secondChild => some (v, holeIndex, secondChild)
  | bound + 1, v, holeIndex, secondChild =>
    if secondChild < (len - 1) / 2 then
      match v[first + 2 * (secondChild + 1)]?, v[first + (2 * (secondChild + 1) - 1)]? with
      | some x, some y =>
        match comp x y with
        | none => none
        | some b =>
          let child := if b then 2 * (secondChild + 1) - 1 else 2 * (secondChild + 1)
          match v[first + child]? with
          | none => none
          | some z =>
            match assign v (first + holeIndex) z with
            | none => none
            | some w => adjust_heap_loop comp first len bound w child child
      | _, _ => none
    else some (v, holeIndex, secondChild)

/-- The function `__adjust_heap(__first, __holeIndex, __len, __value, __comp)`. -/
def adjust_heap (comp : α → α → Option Bool) (v : List α) (first holeIndex len : Nat)
    (value : α) : Option (List α) :=
  match adjust_heap_loop comp first len len v holeIndex holeIndex with
  | none => none
  | some (w, hole, secondChild) =>
    if len % 2 = 0 ∧ secondChild = (len - 2) / 2 then
      match w[first + (2 * (secondChild + 1) - 1)]? with
      | none => none
      | some z =>
        match assign w (first + hole) z with
        | none => none
        | some u =>
          push_heap comp first holeIndex value (2 * (secondChild + 1) - 1) u
            (2 * (secondChild + 1) - 1)
    else push_heap comp first holeIndex value hole w hole

/-- The function `__pop_heap(__first, __last, __result, __comp)`. -/
def pop_heap (comp : α → α → Option Bool) (v : List α) (first last result : Nat) :
    Option (List α) :=
  match v[result]?, v[first]? with
  | some value, some x =>
    match assign v result x with
    | none => none
    | some w => adjust_heap comp w first 0 (last - first) value
  | _, _ => none

/-- The loop of `__make_heap`, from `__parent` down to 0. -/
def make_heap_loop (comp : α → α → Option Bool) (first len : Nat) :
    Nat → List α → Option (List α)
  | 0, v =>
    match v[first]? with
    | none => none
    | some value => adjust_heap comp v first 0 len value
  | parent + 1, v =>
    match v[first + (parent + 1)]? with
    | none => none
    | some value =>
      match adjust_heap comp v first (parent + 1) len value with
      | none => none
      | some w => make_heap_loop comp first len parent w

/-- The function `__make_heap(__first, __last, __comp)`. -/
def make_heap (comp : α → α → Option Bool) (v : List α) (first last : Nat) :
    Option (List α) :=
  if last - first < 2 then some v
  else make_heap_loop comp first (last - first) ((last - first - 2) / 2) v

/-- The `for` loop of `__heap_select`, with `n` iterations left and `__i = i`. -/
def heap_select_loop (comp : α → α → Option Bool) (first middle : Nat) :
    Nat → Nat → List α → Option (List α)
  | 0, _, v => some v
  | n + 1, i, v =>
    match v[i]?, v[first]? with
    | some x, some y =>
      match comp x y with
      | none => none
      | some true =>
        match pop_heap comp v first middle i with
        | none => none
        | some w => heap_select_loop comp first middle n (i + 1) w
      | some false => heap_select_loop comp first middle n (i + 1) v
    | _, _ => none

/-- The function `__heap_select(__first, __middle, __last, __comp)`. -/
def heap_select (comp : α → α → Option Bool) (v : List α) (first middle last : Nat) :
    Option (List α) :=
  match make_heap comp v first middle with
  | none => none
  | some w => heap_select_loop comp first middle (last - middle) middle w

/-- The function `__sort_heap(__first, __last, __comp)`, by recursion on `__last`. -/
def sort_heap (comp : α → α → Option Bool) (first : Nat) : Nat → List α → Option (List α)
  | 0, v => some v
  | last + 1, v =>
    if last + 1 - first > 1 then
      match pop_heap comp v first last last with
      | none => none
      | some w => sort_heap comp first last w
    else some v

/-- The function `__partial_sort(__first, __middle, __last, __comp)`. -/
def partial_sort (comp : α → α → Option Bool) (v : List α) (first middle last : Nat) :
    Option (List α) :=
  match heap_select comp v first middle last with
  | none => none
  | some w => sort_heap comp first middle w

/-- The function `__introsort_loop(__first, __last, __depth_limit, __comp)`: every
turn of its `while` loop lowers `__depth_limit`, which is the argument of the
recursion. -/
def introsort_loop (comp : α → α → Option Bool) :
    Nat → List α → Nat → Nat → Option (List α)
  | 0, v, first, last =>
    if last - first > S_threshold then partial_sort comp v first last last else some v
  | depth_limit + 1, v, first, last =>
    if last - first > S_threshold then
      match unguarded_partition_pivot comp v first last with
      | none => none
      | some (cut, w) =>
        match introsort_loop comp depth_limit w cut last with
        | none => none
        | some u => introsort_loop comp depth_limit u first cut
    else some v

/-- The function `std::__lg`: the position of the highest set bit, for `n > 0`;
`fuel = n` halvings are enough. -/
def lg_loop : Nat → Nat → Nat
  | 0, _ => 0
  | fuel + 1, n => if 2 ≤ n then lg_loop fuel (n / 2) + 1 else 0

/-- The function `std::__lg(n)`. -/
def lg (n : Nat) : Nat := lg_loop n n

/-- The function `std::__sort(__first, __last, __comp)` on a whole vector. -/
def sort (comp : α → α → Option Bool) (v : List α) : Option (List α) :=
  if v.length = 0 then some v
  else
    match introsort_loop comp (lg v.length * 2) v 0 v.length with
    | none => none
    | some w => final_insertion_sort comp 0 v.length w

end stdsort

namespace VecOps

/-!
## `ROOT::VecOps`

The library functions that `pairselection.hxx` calls, as they act on the
vectors at hand.
-/

variable {α : Type}

/-- The loop of `Nonzero`: the positions, counted from `i`, of the entries that
differ from zero. -/
def NonzeroFrom : Nat → List Int → List Nat
  | _, [] => []
  | i, x :: rest =>
    if x ≠ 0 then i :: NonzeroFrom (i + 1) rest else NonzeroFrom (i + 1) rest

/-- The function `Nonzero(v)`: the indices `i` with `v[i] != 0`, in ascending order. -/
def Nonzero (v : List Int) : List Nat := NonzeroFrom 0 v

/-- The function `Take(v, i)`: the vector of the `v[i[k]]`; the reads are unchecked. -/
def Take (v : List α) : List Nat → Option (List α)
  | [] => some []
  | k :: rest =>
    match v[k]?, Take v rest with
    | some x, some r => some (x :: r)
    | _, _ => none

/-- The function `Combinations(v1, v2)`, which only uses the two sizes: the outer loop runs over
the first size, the inner loop over the second; the first vector of the result
collects the outer index and the second vector the inner index. -/
def Combinations (size1 size2 : Nat) : List Nat × List Nat :=
  ((List.range size1).flatMap fun i => List.replicate size2 i,
   (List.range size1).flatMap fun _ => List.range size2)

/-- The function `Construct<std::pair<UInt_t, UInt_t>>(a, b)`: the pairs `(a[k], b[k])`. -/
def Construct (a b : List Nat) : List (Nat × Nat) := List.zip a b

/-- The function `Sort(v, c)`: a copy of `v`, sorted by `std::sort` with the comparison `c`.
(`Sort` is a reserved word, hence the longer name.) -/
def SortVec (c : α → α → Option Bool) (v : List α) : Option (List α) := stdsort.sort c v

/-- The function `Filter(v, f)`: the elements of `v` that satisfy `f`. -/
def Filter (v : List α) (f : α → Bool) : List α := v.filter f

/-- The function `Any(v)`: whether some element of `v` is different from zero. -/
def Any (v : List Int) : Bool := v.any fun x => decide (x ≠ 0)

end VecOps

namespace pairselection

open VecOps

variable {R : Type} [LinearOrderedRing R]

/-- The predicate that `filterGoodPairs` hands to `df.Filter` (`has_valid_pair` in
the specification). -/
def filterGoodPairs (pair : List Int) : Bool :=
  let goodParticles := Filter pair fun i => decide (-1 ≠ i)
  Any goodParticles

/-- The comparison returned by `compareForPairs(lep1pt, lep1iso, lep2pt, lep2iso)`
(`is_better` in the specification), applied to `value_next` and `value_previous`. -/
def compareForPairs (approxEq : R → R → Bool) (lep1pt lep1iso lep2pt lep2iso : List R)
    (value_next value_previous : Nat × Nat) : Option Bool := do
  let i1_next := value_next.1
  let i1_previous := value_previous.2
  let iso1_next ← lep1iso[i1_next]?
  let iso1_previous ← lep1iso[i1_previous]?
  if !approxEq iso1_next iso1_previous then
    pure (decide (iso1_next > iso1_previous))
  else
    let pt1_next ← lep1pt[i1_next]?
    let pt1_previous ← lep1pt[i1_previous]?
    if !approxEq pt1_next pt1_previous then
      pure (decide (pt1_next > pt1_previous))
    else
      let i2_next := value_next.1
      let i2_previous := value_previous.2
      let iso2_next ← lep2iso[i2_next]?
      let iso2_previous ← lep2iso[i2_previous]?
      if !approxEq iso2_next iso2_previous then
        pure (decide (iso2_next > iso2_previous))
      else
        let pt2_next ← lep2pt[i2_next]?
        let pt2_previous ← lep2pt[i2_previous]?
        pure (decide (pt2_next > pt2_previous))

namespace mutau

/-- The conversion `static_cast<int>` of an index.  It keeps every value below
`2^31`; larger indices, which need a mask of more than `2^31` entries, are
outside the model. -/
def static_cast_int (i : Nat) : Int := Int.ofNat i

/-- The function returned by `PairSelectionAlgo()` (`select_pair` in the
specification).  The first entry of the result is the muon index, the second the
tau index.  The reads in the logger calls (`pairs[0]`, `pairs[1]`, and the
attributes at the selected indices) repeat reads that the algorithm makes in range
and are left out. -/
def PairSelectionAlgo (approxEq : R → R → Bool) (taupt tauiso muonpt muoniso : List R)
    (taumask muonmask : List Int) : Option (List Int) :=
  let original_tau_indices := Nonzero taumask
  let original_muon_indices := Nonzero muonmask
  if original_tau_indices.length = 0 ∨ original_muon_indices.length = 0 then
    some [-1, -1]
  else do
    let selected_taupt ← Take taupt original_tau_indices
    let selected_tauiso ← Take tauiso original_tau_indices
    let selected_muonpt ← Take muonpt original_muon_indices
    let selected_muoniso ← Take muoniso original_muon_indices
    let pair_indices := Combinations selected_muonpt.length selected_taupt.length
    let pairs := Construct pair_indices.1 pair_indices.2
    let sorted_pairs ← SortVec
      (compareForPairs approxEq selected_muonpt (selected_muoniso.map fun x => -1 * x)
        selected_taupt selected_tauiso) pairs
    let selected_mu_index := (← sorted_pairs[0]?).1
    let selected_tau_index := (← sorted_pairs[0]?).2
    let mu ← original_muon_indices[selected_mu_index]?
    let tau ← original_tau_indices[selected_tau_index]?
    pure [static_cast_int mu, static_cast_int tau]

end mutau

/-- Modelled from the spec: `utility::ApproxEqual` lives in `utility/utility.hxx`,
which is not among the sources.  Section 4.3 of the specification describes it as
"tolerance ε, a relative/absolute floating-point closeness check, not exact
equality", section 9 as a "combined relative+absolute tolerance": two values are
close when their distance is at most `maxDelta` times the larger of 1 and their
magnitudes.  It is used to run the code on concrete inputs; the general theorems
hold for every closeness test. -/
def ApproxEqual (maxDelta x y : R) : Bool :=
  decide (|x - y| ≤ maxDelta * max 1 (max |x| |y|))

/-- Reference definition, from the wording of the specification (section 4.3): the
four-level cascade on the eight values that are compared.  A level decides as soon
as its two values are not approximately equal; the last level is the exact
comparison of the two `pt` values of the second side. -/
def cascade (approxEq : R → R → Bool)
    (iso1_i iso1_j pt1_i pt1_j iso2_i iso2_j pt2_i pt2_j : R) : Bool :=
  if approxEq iso1_i iso1_j = false then decide (iso1_i > iso1_j)
  else if approxEq pt1_i pt1_j = false then decide (pt1_i > pt1_j)
  else if approxEq iso2_i iso2_j = false then decide (iso2_i > iso2_j)
  else decide (pt2_i > pt2_j)

/-- Reference definition, from the wording of the specification (section 9): the
symmetric cascade, which compares the side-A values at `next.local_a` and
`candidate.local_a` and the side-B values at `next.local_b` and
`candidate.local_b`. -/
def symmetricCascade (approxEq : R → R → Bool) (lep1pt lep1iso lep2pt lep2iso : List R)
    (next candidate : Nat × Nat) : Option Bool := do
  let iso1_next ← lep1iso[next.1]?
  let iso1_candidate ← lep1iso[candidate.1]?
  let pt1_next ← lep1pt[next.1]?
  let pt1_candidate ← lep1pt[candidate.1]?
  let iso2_next ← lep2iso[next.2]?
  let iso2_candidate ← lep2iso[candidate.2]?
  let pt2_next ← lep2pt[next.2]?
  let pt2_candidate ← lep2pt[candidate.2]?
  pure (cascade approxEq iso1_next iso1_candidate pt1_next pt1_candidate
    iso2_next iso2_candidate pt2_next pt2_candidate)

end pairselection

/-!
## Properties
-/

namespace VecOps

/-- A mask without a non-zero entry has no eligible index. -/
theorem NonzeroFrom_eq_nil (i : Nat) (v : List Int) (h : ∀ x ∈ v, x = 0) :
    NonzeroFrom i v = [] := by
  induction v generalizing i with
  | nil => rfl
  | cons x rest ih =>
    have hx : x = 0 := h x (List.mem_cons_self _ _)
    have hr : ∀ y ∈ rest, y = 0 := fun y hy => h y (List.mem_cons_of_mem _ hy)
    simp [NonzeroFrom, hx, ih (i + 1) hr]

/-- An index collected by the loop of `Nonzero` is a position, counted from `i`, of
a non-zero entry. -/
theorem mem_NonzeroFrom (v : List Int) (i k : Nat) (h : k ∈ NonzeroFrom i v) :
    i ≤ k ∧ k - i < v.length ∧ ∃ x, v[k - i]? = some x ∧ x ≠ 0 := by
  induction v generalizing i k with
  | nil => simp [NonzeroFrom] at h
  | cons x rest ih =>
    have key : ∀ j, j ∈ NonzeroFrom (i + 1) rest →
        i ≤ j ∧ j - i < (x :: rest).length ∧ ∃ y, (x :: rest)[j - i]? = some y ∧ y ≠ 0 := by
      intro j hj
      obtain ⟨h1, h2, y, h3, h4⟩ := ih (i + 1) j hj
      have e : j - i = (j - (i + 1)) + 1 := by omega
      refine ⟨by omega, by simp only [List.length_cons]; omega, y, ?_, h4⟩
      rw [e, List.getElem?_cons_succ]
      exact h3
    unfold NonzeroFrom at h
    split at h
    · rcases List.mem_cons.1 h with h | h
      · subst h
        exact ⟨le_refl _, by simp, x, by simp, by assumption⟩
      · exact key k h
    · exact key k h

/-- An eligible index is a position of the mask with a non-zero entry. -/
theorem mem_Nonzero (v : List Int) (k : Nat) (h : k ∈ Nonzero v) :
    k < v.length ∧ ∃ x, v[k]? = some x ∧ x ≠ 0 := by
  obtain ⟨_, h2, h3⟩ := mem_NonzeroFrom v 0 k h
  exact ⟨h2, h3⟩

end VecOps

namespace stdsort

variable {α : Type}

/-- On two elements `std::sort` makes the one comparison of the second with the
first; here it fails and the order is kept. -/
theorem sort_two_of_false (comp : α → α → Option Bool) (a b : α)
    (h : comp b a = some false) : sort comp [a, b] = some [a, b] := by
  simp [sort, lg, lg_loop, introsort_loop, S_threshold, final_insertion_sort, insertion_sort,
    insertion_sort_loop, unguarded_linear_insert, unguarded_linear_insert_loop, assign, h]

/-- On two elements `std::sort` makes the one comparison of the second with the
first; here it holds and the two are exchanged. -/
theorem sort_two_of_true (comp : α → α → Option Bool) (a b : α)
    (h : comp b a = some true) : sort comp [a, b] = some [b, a] := by
  simp [sort, lg, lg_loop, introsort_loop, S_threshold, final_insertion_sort, insertion_sort,
    insertion_sort_loop, move_to_first, h]

/-- The insertion sort that `std::sort` runs on four elements, when the third beats
the first and the fourth beats the third: both move to the front in turn. -/
theorem sort_four_of_true (comp : α → α → Option Bool) (p0 p1 p2 p3 : α)
    (h10 : comp p1 p0 = some false) (h20 : comp p2 p0 = some true)
    (h32 : comp p3 p2 = some true) :
    sort comp [p0, p1, p2, p3] = some [p3, p2, p0, p1] := by
  simp [sort, lg, lg_loop, introsort_loop, S_threshold, final_insertion_sort, insertion_sort,
    insertion_sort_loop, move_to_first, unguarded_linear_insert, unguarded_linear_insert_loop,
    assign, h10, h20, h32]

/-- The insertion sort that `std::sort` runs on four elements, when each of its
five comparisons fails: the order is kept. -/
theorem sort_four_of_false (comp : α → α → Option Bool) (p0 p1 p2 p3 : α)
    (h10 : comp p1 p0 = some false) (h20 : comp p2 p0 = some false)
    (h21 : comp p2 p1 = some false) (h30 : comp p3 p0 = some false)
    (h32 : comp p3 p2 = some false) :
    sort comp [p0, p1, p2, p3] = some [p0, p1, p2, p3] := by
  simp [sort, lg, lg_loop, introsort_loop, S_threshold, final_insertion_sort, insertion_sort,
    insertion_sort_loop, unguarded_linear_insert, unguarded_linear_insert_loop,
    assign, h10, h20, h21, h30, h32]

end stdsort

namespace pairselection

open VecOps

variable {R : Type} [LinearOrderedRing R]

/-- A comparison that reads all four vectors at one and the same position returns
`false`, whatever the closeness test says. -/
theorem compareForPairs_same (approxEq : R → R → Bool)
    (lep1pt lep1iso lep2pt lep2iso : List R) (value_next value_previous : Nat × Nat)
    (a b c d : R) (hi : value_next.1 = value_previous.2)
    (h1 : lep1iso[value_next.1]? = some a) (h2 : lep1pt[value_next.1]? = some b)
    (h3 : lep2iso[value_next.1]? = some c) (h4 : lep2pt[value_next.1]? = some d) :
    compareForPairs approxEq lep1pt lep1iso lep2pt lep2iso value_next value_previous
      = some false := by
  unfold compareForPairs
  simp only [← hi, h1, h2, h3, h4]
  simp

/-- The selection, once the eligible lists are not empty, the four slices are
known, and the sorted vector of local pairs begins with `p`. -/
theorem PairSelectionAlgo_eq_of_sorted (approxEq : R → R → Bool)
    (taupt tauiso muonpt muoniso : List R) (taumask muonmask : List Int)
    (selected_taupt selected_tauiso selected_muonpt selected_muoniso : List R)
    (pairs sorted_pairs : List (Nat × Nat)) (p : Nat × Nat) (mu tau : Nat)
    (h1 : Nonzero taumask ≠ []) (h2 : Nonzero muonmask ≠ [])
    (h3 : Take taupt (Nonzero taumask) = some selected_taupt)
    (h4 : Take tauiso (Nonzero taumask) = some selected_tauiso)
    (h5 : Take muonpt (Nonzero muonmask) = some selected_muonpt)
    (h6 : Take muoniso (Nonzero muonmask) = some selected_muoniso)
    (h7 : Construct (Combinations selected_muonpt.length selected_taupt.length).1
      (Combinations selected_muonpt.length selected_taupt.length).2 = pairs)
    (h8 : stdsort.sort
      (compareForPairs approxEq selected_muonpt (selected_muoniso.map fun x => -1 * x)
        selected_taupt selected_tauiso) pairs = some sorted_pairs)
    (h9 : sorted_pairs[0]? = some p)
    (h10 : (Nonzero muonmask)[p.1]? = some mu) (h11 : (Nonzero taumask)[p.2]? = some tau) :
    mutau.PairSelectionAlgo approxEq taupt tauiso muonpt muoniso taumask muonmask
      = some [(mu : Int), (tau : Int)] := by
  unfold mutau.PairSelectionAlgo
  have e : ¬ ((Nonzero taumask).length = 0 ∨ (Nonzero muonmask).length = 0) := by
    simp [List.length_eq_zero, h1, h2]
  simp only [if_neg e, h3, h4, h5, h6, h7, SortVec, h8, h9, h10, h11, Option.bind_eq_bind,
    Option.some_bind, Option.pure_def, mutau.static_cast_int, Int.ofNat_eq_coe]

/-- One eligible muon and two eligible taus, all three at the front of their
vectors: the only comparison that the sort makes reads every vector at position 0
on both sides, so the order is kept and the first tau is selected. -/
theorem PairSelectionAlgo_one_muon_two_taus (approxEq : R → R → Bool)
    (taupt0 taupt1 tauiso0 tauiso1 muonpt0 muoniso0 : R) :
    mutau.PairSelectionAlgo approxEq [taupt0, taupt1] [tauiso0, tauiso1] [muonpt0]
      [muoniso0] [1, 1] [1] = some [0, 0] := by
  have hc : compareForPairs approxEq [muonpt0] ([muoniso0].map fun x => -1 * x)
      [taupt0, taupt1] [tauiso0, tauiso1] (0, 1) (0, 0) = some false :=
    compareForPairs_same approxEq _ _ _ _ (0, 1) (0, 0) (-1 * muoniso0) muonpt0 tauiso0
      taupt0 rfl rfl rfl rfl rfl
  exact PairSelectionAlgo_eq_of_sorted approxEq _ _ _ _ [1, 1] [1]
    [taupt0, taupt1] [tauiso0, tauiso1] [muonpt0] [muoniso0]
    [(0, 0), (0, 1)] [(0, 0), (0, 1)] (0, 0) 0 0
    (by decide) (by decide) rfl rfl rfl rfl rfl
    (stdsort.sort_two_of_false _ _ _ hc) rfl rfl rfl

/-- The slice at two indices that are in range. -/
theorem Take_two {α : Type} (v : List α) (k0 k1 : Nat) (x0 x1 : α)
    (h0 : v[k0]? = some x0) (h1 : v[k1]? = some x1) : Take v [k0, k1] = some [x0, x1] := by
  simp [Take, h0, h1]

/-- The slice at one index that is in range. -/
theorem Take_one {α : Type} (v : List α) (k0 : Nat) (x0 : α)
    (h0 : v[k0]? = some x0) : Take v [k0] = some [x0] := by
  simp [Take, h0]

/-- Two eligible muons and two eligible taus: the sort asks one question that is
not about a single position, namely whether position 1 beats position 0. -/
theorem PairSelectionAlgo_two_two (approxEq : R → R → Bool)
    (taupt tauiso muonpt muoniso : List R) (taumask muonmask : List Int)
    (a0 a1 b0 b1 : Nat) (q0 q1 x0 x1 t0 t1 y0 y1 : R) (T : Bool)
    (hA : Nonzero muonmask = [a0, a1]) (hB : Nonzero taumask = [b0, b1])
    (hq0 : muonpt[a0]? = some q0) (hq1 : muonpt[a1]? = some q1)
    (hx0 : muoniso[a0]? = some x0) (hx1 : muoniso[a1]? = some x1)
    (ht0 : taupt[b0]? = some t0) (ht1 : taupt[b1]? = some t1)
    (hy0 : tauiso[b0]? = some y0) (hy1 : tauiso[b1]? = some y1)
    (hT : compareForPairs approxEq [q0, q1] ([x0, x1].map fun x => -1 * x) [t0, t1] [y0, y1]
      (1, 0) (0, 0) = some T) :
    mutau.PairSelectionAlgo approxEq taupt tauiso muonpt muoniso taumask muonmask
      = some (if T then [(a1 : Int), (b1 : Int)] else [(a0 : Int), (b0 : Int)]) := by
  have h01 : compareForPairs approxEq [q0, q1] ([x0, x1].map fun x => -1 * x) [t0, t1]
      [y0, y1] (0, 1) (0, 0) = some false :=
    compareForPairs_same approxEq _ _ _ _ (0, 1) (0, 0) (-1 * x0) q0 y0 t0 rfl rfl rfl rfl rfl
  have h21 : compareForPairs approxEq [q0, q1] ([x0, x1].map fun x => -1 * x) [t0, t1]
      [y0, y1] (1, 0) (0, 1) = some false :=
    compareForPairs_same approxEq _ _ _ _ (1, 0) (0, 1) (-1 * x1) q1 y1 t1 rfl rfl rfl rfl rfl
  have h30 : compareForPairs approxEq [q0, q1] ([x0, x1].map fun x => -1 * x) [t0, t1]
      [y0, y1] (1, 1) (0, 0) = some T := hT
  have h32 : compareForPairs approxEq [q0, q1] ([x0, x1].map fun x => -1 * x) [t0, t1]
      [y0, y1] (1, 1) (1, 0) = some T := hT
  have hne1 : Nonzero taumask ≠ [] := by simp [hB]
  have hne2 : Nonzero muonmask ≠ [] := by simp [hA]
  cases T with
  | true =>
    exact PairSelectionAlgo_eq_of_sorted approxEq _ _ _ _ taumask muonmask
      [t0, t1] [y0, y1] [q0, q1] [x0, x1] [(0, 0), (0, 1), (1, 0), (1, 1)]
      [(1, 1), (1, 0), (0, 0), (0, 1)] (1, 1) a1 b1 hne1 hne2
      (by rw [hB]; exact Take_two _ _ _ _ _ ht0 ht1)
      (by rw [hB]; exact Take_two _ _ _ _ _ hy0 hy1)
      (by rw [hA]; exact Take_two _ _ _ _ _ hq0 hq1)
      (by rw [hA]; exact Take_two _ _ _ _ _ hx0 hx1) rfl
      (stdsort.sort_four_of_true _ _ _ _ _ h01 hT h32) rfl
      (by rw [hA]; rfl) (by rw [hB]; rfl)
  | false =>
    exact PairSelectionAlgo_eq_of_sorted approxEq _ _ _ _ taumask muonmask
      [t0, t1] [y0, y1] [q0, q1] [x0, x1] [(0, 0), (0, 1), (1, 0), (1, 1)]
      [(0, 0), (0, 1), (1, 0), (1, 1)] (0, 0) a0 b0 hne1 hne2
      (by rw [hB]; exact Take_two _ _ _ _ _ ht0 ht1)
      (by rw [hB]; exact Take_two _ _ _ _ _ hy0 hy1)
      (by rw [hA]; exact Take_two _ _ _ _ _ hq0 hq1)
      (by rw [hA]; exact Take_two _ _ _ _ _ hx0 hx1) rfl
      (stdsort.sort_four_of_false _ _ _ _ _ h01 hT h21 h30 h32) rfl
      (by rw [hA]; rfl) (by rw [hB]; rfl)

/-- Two eligible muons and one eligible tau. -/
theorem PairSelectionAlgo_two_one (approxEq : R → R → Bool)
    (taupt tauiso muonpt muoniso : List R) (taumask muonmask : List Int)
    (a0 a1 b0 : Nat) (q0 q1 x0 x1 t0 y0 : R) (T : Bool)
    (hA : Nonzero muonmask = [a0, a1]) (hB : Nonzero taumask = [b0])
    (hq0 : muonpt[a0]? = some q0) (hq1 : muonpt[a1]? = some q1)
    (hx0 : muoniso[a0]? = some x0) (hx1 : muoniso[a1]? = some x1)
    (ht0 : taupt[b0]? = some t0) (hy0 : tauiso[b0]? = some y0)
    (hT : compareForPairs approxEq [q0, q1] ([x0, x1].map fun x => -1 * x) [t0] [y0]
      (1, 0) (0, 0) = some T) :
    mutau.PairSelectionAlgo approxEq taupt tauiso muonpt muoniso taumask muonmask
      = some (if T then [(a1 : Int), (b0 : Int)] else [(a0 : Int), (b0 : Int)]) := by
  have hne1 : Nonzero taumask ≠ [] := by simp [hB]
  have hne2 : Nonzero muonmask ≠ [] := by simp [hA]
  cases T with
  | true =>
    exact PairSelectionAlgo_eq_of_sorted approxEq _ _ _ _ taumask muonmask
      [t0] [y0] [q0, q1] [x0, x1] [(0, 0), (1, 0)] [(1, 0), (0, 0)] (1, 0) a1 b0 hne1 hne2
      (by rw [hB]; exact Take_one _ _ _ ht0) (by rw [hB]; exact Take_one _ _ _ hy0)
      (by rw [hA]; exact Take_two _ _ _ _ _ hq0 hq1)
      (by rw [hA]; exact Take_two _ _ _ _ _ hx0 hx1) rfl
      (stdsort.sort_two_of_true _ _ _ hT) rfl (by rw [hA]; rfl) (by rw [hB]; rfl)
  | false =>
    exact PairSelectionAlgo_eq_of_sorted approxEq _ _ _ _ taumask muonmask
      [t0] [y0] [q0, q1] [x0, x1] [(0, 0), (1, 0)] [(0, 0), (1, 0)] (0, 0) a0 b0 hne1 hne2
      (by rw [hB]; exact Take_one _ _ _ ht0) (by rw [hB]; exact Take_one _ _ _ hy0)
      (by rw [hA]; exact Take_two _ _ _ _ _ hq0 hq1)
      (by rw [hA]; exact Take_two _ _ _ _ _ hx0 hx1) rfl
      (stdsort.sort_two_of_false _ _ _ hT) rfl (by rw [hA]; rfl) (by rw [hB]; rfl)

/-- C1: when the muon mask (side A) or the tau mask (side B) has no non-zero entry,
the selection returns the sentinel `[-1, -1]`, for all attribute vectors and for
every content of the other mask.  The attribute vectors are arbitrary, the empty
ones included, and the result is not the failure `none`: no attribute is read. -/
theorem PairSelectionAlgo_sentinel_of_empty_side (approxEq : R → R → Bool)
    (taupt tauiso muonpt muoniso : List R) (taumask muonmask : List Int)
    (h : (∀ x ∈ muonmask, x = 0) ∨ (∀ x ∈ taumask, x = 0)) :
    mutau.PairSelectionAlgo approxEq taupt tauiso muonpt muoniso taumask muonmask
      = some [-1, -1] := by
  unfold mutau.PairSelectionAlgo
  rcases h with h | h
  · simp [Nonzero, NonzeroFrom_eq_nil 0 muonmask h]
  · simp [Nonzero, NonzeroFrom_eq_nil 0 taumask h]

/-- C1 at a concrete input: a muon mask of zeros, a tau mask with eligible entries,
and empty attribute vectors. -/
theorem PairSelectionAlgo_sentinel_of_empty_side_witness :
    ((∀ x ∈ ([0, 0] : List Int), x = 0) ∨ (∀ x ∈ ([1, 0, 2] : List Int), x = 0)) ∧
    mutau.PairSelectionAlgo (ApproxEqual (1 / 100000 : ℚ)) [] [] [] [] [1, 0, 2] [0, 0]
      = some [-1, -1] :=
  ⟨Or.inl (by decide),
    PairSelectionAlgo_sentinel_of_empty_side (ApproxEqual (1 / 100000 : ℚ)) [] [] [] []
      [1, 0, 2] [0, 0] (Or.inl (by decide))⟩

/-- C2: a result other than the sentinel is a pair `[global_a, global_b]` of
natural numbers with `global_a` a position of the muon mask and `global_b` a
position of the tau mask, both masks being non-zero there; the pair is read
off the two eligible-index lists at the local pair that the sort puts first. -/
theorem PairSelectionAlgo_result_eligible (approxEq : R → R → Bool)
    (taupt tauiso muonpt muoniso : List R) (taumask muonmask : List Int) (r : List Int)
    (h : mutau.PairSelectionAlgo approxEq taupt tauiso muonpt muoniso taumask muonmask
      = some r)
    (hr : r ≠ [-1, -1]) :
    ∃ global_a global_b : Nat, r = [(global_a : Int), (global_b : Int)] ∧
      (0 : Int) ≤ global_a ∧ global_a < muonmask.length ∧
      (0 : Int) ≤ global_b ∧ global_b < taumask.length ∧
      (∃ x, muonmask[global_a]? = some x ∧ x ≠ 0) ∧
      (∃ y, taumask[global_b]? = some y ∧ y ≠ 0) ∧
      ∃ (selected_taupt selected_tauiso selected_muonpt selected_muoniso : List R)
        (sorted_pairs : List (Nat × Nat)) (local_a local_b : Nat),
        Take taupt (Nonzero taumask) = some selected_taupt ∧
        Take tauiso (Nonzero taumask) = some selected_tauiso ∧
        Take muonpt (Nonzero muonmask) = some selected_muonpt ∧
        Take muoniso (Nonzero muonmask) = some selected_muoniso ∧
        SortVec
          (compareForPairs approxEq selected_muonpt (selected_muoniso.map fun x => -1 * x)
            selected_taupt selected_tauiso)
          (Construct (Combinations selected_muonpt.length selected_taupt.length).1
            (Combinations selected_muonpt.length selected_taupt.length).2)
          = some sorted_pairs ∧
        sorted_pairs[0]? = some (local_a, local_b) ∧
        (Nonzero muonmask)[local_a]? = some global_a ∧
        (Nonzero taumask)[local_b]? = some global_b := by
  unfold mutau.PairSelectionAlgo at h
  simp only [] at h
  split at h
  · exact absurd (Option.some.inj h).symm hr
  · simp only [Option.bind_eq_bind, Option.bind_eq_some, Option.pure_def,
      Option.some.injEq] at h
    obtain ⟨tp, htp, ti, hti, mp, hmp, mi, hmi, sp, hsp, p, hp, p', hp', mu, hmu, tau,
      htau, hres⟩ := h
    have hpp : p' = p := by rw [hp] at hp'; exact (Option.some.inj hp').symm
    subst hpp
    obtain ⟨hmu1, hmu2⟩ := mem_Nonzero muonmask mu (List.getElem?_mem hmu)
    obtain ⟨htau1, htau2⟩ := mem_Nonzero taumask tau (List.getElem?_mem htau)
    exact ⟨mu, tau, hres.symm, Int.ofNat_nonneg _, hmu1, Int.ofNat_nonneg _, htau1, hmu2,
      htau2, tp, ti, mp, mi, sp, p'.1, p'.2, htp, hti, hmp, hmi, hsp, hp, hmu, htau⟩

/-- C2 at Scenario A of the specification, where the result is `[0, 0]`. -/
theorem PairSelectionAlgo_result_eligible_witness :
    mutau.PairSelectionAlgo (ApproxEqual (1 / 100000 : ℚ)) [20, 30] [0.05, 0.2] [10] [0.1]
      [1, 1] [1] = some [0, 0] ∧
    ([0, 0] : List Int) ≠ [-1, -1] ∧
    ∃ global_a global_b : Nat, ([0, 0] : List Int) = [(global_a : Int), (global_b : Int)] ∧
      global_a < ([1] : List Int).length ∧ global_b < ([1, 1] : List Int).length ∧
      (∃ x, ([1] : List Int)[global_a]? = some x ∧ x ≠ 0) ∧
      (∃ y, ([1, 1] : List Int)[global_b]? = some y ∧ y ≠ 0) := by
  have h := PairSelectionAlgo_one_muon_two_taus (ApproxEqual (1 / 100000 : ℚ))
    20 30 0.05 0.2 10 0.1
  obtain ⟨a, b, h1, _, h2, _, h3, h4, h5, _⟩ :=
    PairSelectionAlgo_result_eligible (ApproxEqual (1 / 100000 : ℚ)) [20, 30] [0.05, 0.2]
      [10] [0.1] [1, 1] [1] [0, 0] h (by decide)
  exact ⟨h, by decide, a, b, h1, h2, h3, h4, h5⟩

/-- C3: the predicate of `filterGoodPairs` on the valid pair `(0, 0)` and on a pair
with one sentinel component: it rejects the first and accepts the second, where
"true iff neither component is -1" asks for the opposite. -/
theorem filterGoodPairs_zero_zero :
    filterGoodPairs [0, 0] = false ∧ filterGoodPairs [-1, 5] = true := by
  decide

/-- C4: Scenario A of the specification (one muon with pt 10 and isolation 0.1, two
taus with pt 20, 30 and isolation 0.05, 0.2, every mask entry set).  The selection
returns `[0, 0]`, the tau of the lower isolation, for every closeness test. -/
theorem PairSelectionAlgo_scenario_A (approxEq : ℚ → ℚ → Bool) :
    mutau.PairSelectionAlgo approxEq [20, 30] [0.05, 0.2] [10] [0.1] [1, 1] [1]
      = some [0, 0] :=
  PairSelectionAlgo_one_muon_two_taus approxEq 20 30 0.05 0.2 10 0.1

/-- C6: when the eight reads at `i = next.first` and `j = candidate.second` are in
range, the comparison is the four-level cascade on the values read at `i` and `j`
from the vectors of both sides; `next.second` and `candidate.first` play no part. -/
theorem compareForPairs_eq_cascade (approxEq : R → R → Bool)
    (lep1pt lep1iso lep2pt lep2iso : List R) (next candidate : Nat × Nat)
    (iso1_i iso1_j pt1_i pt1_j iso2_i iso2_j pt2_i pt2_j : R)
    (h1 : lep1iso[next.1]? = some iso1_i) (h2 : lep1iso[candidate.2]? = some iso1_j)
    (h3 : lep1pt[next.1]? = some pt1_i) (h4 : lep1pt[candidate.2]? = some pt1_j)
    (h5 : lep2iso[next.1]? = some iso2_i) (h6 : lep2iso[candidate.2]? = some iso2_j)
    (h7 : lep2pt[next.1]? = some pt2_i) (h8 : lep2pt[candidate.2]? = some pt2_j) :
    compareForPairs approxEq lep1pt lep1iso lep2pt lep2iso next candidate
      = some (cascade approxEq iso1_i iso1_j pt1_i pt1_j iso2_i iso2_j pt2_i pt2_j) ∧
    ∀ next_second candidate_first : Nat,
      compareForPairs approxEq lep1pt lep1iso lep2pt lep2iso (next.1, next_second)
          (candidate_first, candidate.2)
        = compareForPairs approxEq lep1pt lep1iso lep2pt lep2iso next candidate := by
  refine ⟨?_, fun _ _ => rfl⟩
  unfold compareForPairs cascade
  simp only [h1, h2, h3, h4, h5, h6, h7, h8, Option.bind_eq_bind, Option.some_bind,
    Option.pure_def]
  cases approxEq iso1_i iso1_j <;> cases approxEq pt1_i pt1_j <;>
    cases approxEq iso2_i iso2_j <;> simp

/-- C6 at a concrete input with `i = 0` and `j = 1`. -/
theorem compareForPairs_eq_cascade_witness :
    compareForPairs (ApproxEqual (1 / 100000 : ℚ)) [10, 20] [0.1, 0.1] [30, 40] [0.5, 0.7]
        (0, 1) (0, 1)
      = some (cascade (ApproxEqual (1 / 100000 : ℚ)) 0.1 0.1 10 20 0.5 0.7 30 40) ∧
    ∀ next_second candidate_first : Nat,
      compareForPairs (ApproxEqual (1 / 100000 : ℚ)) [10, 20] [0.1, 0.1] [30, 40] [0.5, 0.7]
          (0, next_second) (candidate_first, 1)
        = compareForPairs (ApproxEqual (1 / 100000 : ℚ)) [10, 20] [0.1, 0.1] [30, 40]
          [0.5, 0.7] (0, 1) (0, 1) :=
  compareForPairs_eq_cascade (ApproxEqual (1 / 100000 : ℚ)) [10, 20] [0.1, 0.1] [30, 40]
    [0.5, 0.7] (0, 1) (0, 1) 0.1 0.1 10 20 0.5 0.7 30 40 rfl rfl rfl rfl rfl rfl rfl rfl

/-- C7: the comparison of the local pair `(0, 1)` with itself is `true`: it reads the
first side at position 0 for `next` and at position 1 for `candidate`, so the
relation is not irreflexive. -/
theorem compareForPairs_self_true :
    compareForPairs (ApproxEqual (1 / 100000 : ℚ)) [10, 20] [2, 1] [30, 40] [5, 6]
      (0, 1) (0, 1) = some true := by
  norm_num [compareForPairs, ApproxEqual]

/-- C8: three local pairs in range, over vectors whose entries differ by 1 or more:
`P1 = (0, 1)` beats `P2 = (1, 2)` and `P2` beats `P3 = (2, 3)`, yet `P1` does not
beat `P3`; the relation is not transitive.  Each of the three comparisons is
decided at the first level, on values that are not approximately equal. -/
theorem compareForPairs_not_transitive :
    ApproxEqual (1 / 100000 : ℚ) 5 1 = false ∧
    ApproxEqual (1 / 100000 : ℚ) 10 7 = false ∧
    ApproxEqual (1 / 100000 : ℚ) 5 7 = false ∧
    compareForPairs (ApproxEqual (1 / 100000 : ℚ)) [1, 2, 3, 4] [5, 10, 1, 7] [1, 2, 3, 4]
      [1, 2, 3, 4] (0, 1) (1, 2) = some true ∧
    compareForPairs (ApproxEqual (1 / 100000 : ℚ)) [1, 2, 3, 4] [5, 10, 1, 7] [1, 2, 3, 4]
      [1, 2, 3, 4] (1, 2) (2, 3) = some true ∧
    compareForPairs (ApproxEqual (1 / 100000 : ℚ)) [1, 2, 3, 4] [5, 10, 1, 7] [1, 2, 3, 4]
      [1, 2, 3, 4] (0, 1) (2, 3) = some false := by
  refine ⟨?_, ?_, ?_, ?_⟩
  · norm_num [ApproxEqual, abs_of_pos, abs_of_neg, abs_of_nonneg, max_def]
  · norm_num [ApproxEqual, abs_of_pos, abs_of_neg, abs_of_nonneg, max_def]
  · norm_num [ApproxEqual, abs_of_pos, abs_of_neg, abs_of_nonneg, max_def]
  · norm_num [compareForPairs, ApproxEqual]

/-- C9: for `next = (0, 0)` and `candidate = (1, 0)` the comparison reads the first
side at position 0 twice and returns `false`, while the symmetric cascade compares
the isolations 2 and 1 of the positions 0 and 1 and returns `true`. -/
theorem compareForPairs_ne_symmetricCascade :
    compareForPairs (ApproxEqual (1 / 100000 : ℚ)) [10, 20] [2, 1] [30, 40] [5, 6]
      (0, 0) (1, 0) = some false ∧
    symmetricCascade (ApproxEqual (1 / 100000 : ℚ)) [10, 20] [2, 1] [30, 40] [5, 6]
      (0, 0) (1, 0) = some true := by
  norm_num [compareForPairs, symmetricCascade, cascade, ApproxEqual]

/-- C5 (counterexample): two eligible muons with the isolations 0.1 and 0.3, which
are not approximately equal, and one eligible tau.  The muon with the highest
isolation is at position 1; the selection returns position 0. -/
theorem PairSelectionAlgo_not_highest_muon_isolation :
    ApproxEqual (1 / 100000 : ℚ) 0.1 0.3 = false ∧
    ApproxEqual (1 / 100000 : ℚ) 0.3 0.1 = false ∧
    mutau.PairSelectionAlgo (ApproxEqual (1 / 100000 : ℚ)) [20] [0.5] [10, 12] [0.1, 0.3]
      [1] [1, 1] = some [0, 0] := by
  refine ⟨?_, ?_, ?_⟩
  · norm_num [ApproxEqual, abs_of_pos, abs_of_neg, abs_of_nonneg, max_def]
  · norm_num [ApproxEqual, abs_of_pos, abs_of_neg, abs_of_nonneg, max_def]
  have hT : compareForPairs (ApproxEqual (1 / 100000 : ℚ)) [10, 12]
      ([0.1, 0.3].map fun x => -1 * x) [20] [0.5] (1, 0) (0, 0) = some false := by
    norm_num [compareForPairs, ApproxEqual, abs_of_pos, abs_of_neg, abs_of_nonneg,
      max_def]
  exact PairSelectionAlgo_two_one (ApproxEqual (1 / 100000 : ℚ)) [20] [0.5] [10, 12]
    [0.1, 0.3] [1] [1, 1] 0 1 0 10 12 0.1 0.3 20 0.5 false (by decide) (by decide)
    rfl rfl rfl rfl rfl rfl hT

/-- C5 (amended): with exactly two eligible muons, at the positions `a0 < a1` with the
isolations `x0` and `x1`, and one or two eligible taus, all inside attribute vectors
as long as their masks, if the two isolations, with the sign that the code gives
them, are not approximately equal, then the first component of the result is the
position of the muon with the lowest isolation. -/
theorem PairSelectionAlgo_lowest_muon_isolation (approxEq : R → R → Bool)
    (taupt tauiso muonpt muoniso : List R) (taumask muonmask : List Int)
    (a0 a1 : Nat) (x0 x1 : R)
    (hA : Nonzero muonmask = [a0, a1])
    (hB : (Nonzero taumask).length = 1 ∨ (Nonzero taumask).length = 2)
    (htp : taupt.length = taumask.length) (hti : tauiso.length = taumask.length)
    (hmp : muonpt.length = muonmask.length)
    (hx0 : muoniso[a0]? = some x0) (hx1 : muoniso[a1]? = some x1)
    (hne : approxEq (-1 * x1) (-1 * x0) = false) :
    ∃ global_b : Nat,
      mutau.PairSelectionAlgo approxEq taupt tauiso muonpt muoniso taumask muonmask
        = some [((if x1 < x0 then a1 else a0 : Nat) : Int), (global_b : Int)] := by
  have hne' : approxEq (-x1) (-x0) = false := by simpa using hne
  have ha0 : a0 < muonpt.length := by
    rw [hmp]; exact (mem_Nonzero muonmask a0 (by rw [hA]; simp)).1
  have ha1 : a1 < muonpt.length := by
    rw [hmp]; exact (mem_Nonzero muonmask a1 (by rw [hA]; simp)).1
  have hq0 : muonpt[a0]? = some muonpt[a0] := List.getElem?_eq_getElem ha0
  have hq1 : muonpt[a1]? = some muonpt[a1] := List.getElem?_eq_getElem ha1
  have hread : ∀ b ∈ Nonzero taumask,
      taupt[b]? = some (taupt.getD b 0) ∧ tauiso[b]? = some (tauiso.getD b 0) := by
    intro b hb
    have hlt := (mem_Nonzero taumask b hb).1
    have h1 : b < taupt.length := by rw [htp]; exact hlt
    have h2 : b < tauiso.length := by rw [hti]; exact hlt
    simp [List.getD_eq_getElem?_getD, List.getElem?_eq_getElem, h1, h2]
  rcases hB with hB | hB
  · obtain ⟨b0, hb⟩ := List.length_eq_one.1 hB
    obtain ⟨ht0, hy0⟩ := hread b0 (by rw [hb]; simp)
    have hT : compareForPairs approxEq [muonpt[a0], muonpt[a1]]
        ([x0, x1].map fun x => -1 * x) [taupt.getD b0 0] [tauiso.getD b0 0] (1, 0) (0, 0)
        = some (decide (x1 < x0)) := by
      simp [compareForPairs, hne']
    have h := PairSelectionAlgo_two_one approxEq taupt tauiso muonpt muoniso taumask
      muonmask a0 a1 b0 _ _ x0 x1 _ _ _ hA hb hq0 hq1 hx0 hx1 ht0 hy0 hT
    refine ⟨b0, ?_⟩
    by_cases hx : x1 < x0
    · simpa [hx] using h
    · simpa [hx] using h
  · obtain ⟨b0, b1, hb⟩ := List.length_eq_two.1 hB
    obtain ⟨ht0, hy0⟩ := hread b0 (by rw [hb]; simp)
    obtain ⟨ht1, hy1⟩ := hread b1 (by rw [hb]; simp)
    have hT : compareForPairs approxEq [muonpt[a0], muonpt[a1]]
        ([x0, x1].map fun x => -1 * x) [taupt.getD b0 0, taupt.getD b1 0]
        [tauiso.getD b0 0, tauiso.getD b1 0] (1, 0) (0, 0) = some (decide (x1 < x0)) := by
      simp [compareForPairs, hne']
    have h := PairSelectionAlgo_two_two approxEq taupt tauiso muonpt muoniso taumask
      muonmask a0 a1 b0 b1 _ _ x0 x1 _ _ _ _ _ hA hb hq0 hq1 hx0 hx1 ht0 ht1 hy0 hy1 hT
    by_cases hx : x1 < x0
    · exact ⟨b1, by simpa [hx] using h⟩
    · exact ⟨b0, by simpa [hx] using h⟩

/-- C5 (amended) at a concrete input: the eligible muons are at the positions 1 and
2 with the isolations 0.4 and 0.2, and position 2 is selected. -/
theorem PairSelectionAlgo_lowest_muon_isolation_witness :
    Nonzero [0, 1, 1] = [1, 2] ∧
    ((Nonzero [1, 1]).length = 1 ∨ (Nonzero [1, 1]).length = 2) ∧
    ApproxEqual (1 / 100000 : ℚ) (-1 * 0.2) (-1 * 0.4) = false ∧
    ∃ global_b : Nat,
      mutau.PairSelectionAlgo (ApproxEqual (1 / 100000 : ℚ)) [20, 30] [0.5, 0.6]
        [9, 10, 12] [0.1, 0.4, 0.2] [1, 1] [0, 1, 1] = some [2, (global_b : Int)] := by
  have hne : ApproxEqual (1 / 100000 : ℚ) (-1 * 0.2) (-1 * 0.4) = false := by
    norm_num [ApproxEqual, abs_of_pos, abs_of_neg, abs_of_nonneg, max_def]
  obtain ⟨b, hb⟩ := PairSelectionAlgo_lowest_muon_isolation (ApproxEqual (1 / 100000 : ℚ))
    [20, 30] [0.5, 0.6] [9, 10, 12] [0.1, 0.4, 0.2] [1, 1] [0, 1, 1] 1 2 0.4 0.2
    (by decide) (Or.inr (by decide)) rfl rfl rfl rfl rfl hne
  have hlt : (0.2 : ℚ) < 0.4 := by norm_num
  rw [if_pos hlt] at hb
  exact ⟨by decide, Or.inr (by decide), hne, b, hb⟩

/-- C10: with exactly two eligible muons (positions `a0 < a1`) whose isolations, with
the sign that the code gives them, and whose pt are approximately equal, and exactly
two eligible taus (positions `b0 < b1`) whose isolations `y0`, `y1` are not
approximately equal, the selection returns a pair, and its second component is the
position of the tau with the higher isolation. -/
theorem PairSelectionAlgo_tie_falls_through (approxEq : R → R → Bool)
    (taupt tauiso muonpt muoniso : List R) (taumask muonmask : List Int)
    (a0 a1 b0 b1 : Nat) (q0 q1 x0 x1 t0 t1 y0 y1 : R)
    (hA : Nonzero muonmask = [a0, a1]) (hB : Nonzero taumask = [b0, b1])
    (hq0 : muonpt[a0]? = some q0) (hq1 : muonpt[a1]? = some q1)
    (hx0 : muoniso[a0]? = some x0) (hx1 : muoniso[a1]? = some x1)
    (ht0 : taupt[b0]? = some t0) (ht1 : taupt[b1]? = some t1)
    (hy0 : tauiso[b0]? = some y0) (hy1 : tauiso[b1]? = some y1)
    (hiso : approxEq (-1 * x1) (-1 * x0) = true) (hpt : approxEq q1 q0 = true)
    (hne : approxEq y1 y0 = false) :
    ∃ global_a : Nat,
      mutau.PairSelectionAlgo approxEq taupt tauiso muonpt muoniso taumask muonmask
        = some [(global_a : Int), ((if y1 > y0 then b1 else b0 : Nat) : Int)] := by
  have hiso' : approxEq (-x1) (-x0) = true := by simpa using hiso
  have hT : compareForPairs approxEq [q0, q1] ([x0, x1].map fun x => -1 * x) [t0, t1]
      [y0, y1] (1, 0) (0, 0) = some (decide (y1 > y0)) := by
    simp [compareForPairs, hiso', hpt, hne]
  have h := PairSelectionAlgo_two_two approxEq taupt tauiso muonpt muoniso taumask muonmask
    a0 a1 b0 b1 q0 q1 x0 x1 t0 t1 y0 y1 _ hA hB hq0 hq1 hx0 hx1 ht0 ht1 hy0 hy1 hT
  by_cases hy : y1 > y0
  · exact ⟨a1, by simpa [hy] using h⟩
  · exact ⟨a0, by simpa [hy] using h⟩

/-- C10 at a concrete input: the eligible muons at the positions 1 and 2 are equal in
isolation and pt, the eligible taus at the positions 0 and 2 have the isolations
0.5 and 0.7, and the tau at position 2 is selected. -/
theorem PairSelectionAlgo_tie_falls_through_witness :
    Nonzero [0, 1, 1] = [1, 2] ∧ Nonzero [1, 0, 1] = [0, 2] ∧
    ApproxEqual (1 / 100000 : ℚ) (-1 * 0.1) (-1 * 0.1) = true ∧
    ApproxEqual (1 / 100000 : ℚ) 10 10 = true ∧
    ApproxEqual (1 / 100000 : ℚ) 0.7 0.5 = false ∧
    ∃ global_a : Nat,
      mutau.PairSelectionAlgo (ApproxEqual (1 / 100000 : ℚ)) [20, 77, 30] [0.5, 0.9, 0.7]
        [99, 10, 10] [0.9, 0.1, 0.1] [1, 0, 1] [0, 1, 1] = some [(global_a : Int), 2] := by
  have h1 : ApproxEqual (1 / 100000 : ℚ) (-1 * 0.1) (-1 * 0.1) = true := by
    norm_num [ApproxEqual, abs_of_pos, abs_of_neg, abs_of_nonneg, max_def]
  have h2 : ApproxEqual (1 / 100000 : ℚ) 10 10 = true := by
    norm_num [ApproxEqual, abs_of_pos, abs_of_neg, abs_of_nonneg, max_def]
  have h3 : ApproxEqual (1 / 100000 : ℚ) 0.7 0.5 = false := by
    norm_num [ApproxEqual, abs_of_pos, abs_of_neg, abs_of_nonneg, max_def]
  obtain ⟨a, ha⟩ := PairSelectionAlgo_tie_falls_through (ApproxEqual (1 / 100000 : ℚ))
    [20, 77, 30] [0.5, 0.9, 0.7] [99, 10, 10] [0.9, 0.1, 0.1] [1, 0, 1] [0, 1, 1]
    1 2 0 2 10 10 0.1 0.1 20 30 0.5 0.7 (by decide) (by decide)
    rfl rfl rfl rfl rfl rfl rfl rfl h1 h2 h3
  have hgt : (0.7 : ℚ) > 0.5 := by norm_num
  rw [if_pos hgt] at ha
  exact ⟨by decide, by decide, h1, h2, h3, a, ha⟩

end pairselection

namespace VecOps

/-- The first vector of `Combinations` has `m * n` entries. -/
theorem length_replicate_flatMap (m n : Nat) :
    ((List.range m).flatMap fun i => List.replicate n i).length = m * n := by
  induction m with
  | zero => simp
  | succ m ih => simp [List.range_succ, List.flatMap_append, ih, Nat.succ_mul]

/-- The second vector of `Combinations` has `m * n` entries. -/
theorem length_range_flatMap (m n : Nat) :
    ((List.range m).flatMap fun _ => List.range n).length = m * n := by
  induction m with
  | zero => simp
  | succ m ih => simp [List.range_succ, List.flatMap_append, ih, Nat.succ_mul]

/-- The pairs of one turn of the outer loop: outer index `m`, inner index `j`. -/
theorem zip_replicate_range (m n : Nat) :
    List.zip (List.replicate n m) (List.range n)
      = (List.range n).map fun j => ((m * n + j) / n, (m * n + j) % n) := by
  apply List.ext_getElem?
  intro k
  by_cases hk : k < n
  · have hn : 0 < n := by omega
    have h1 : (m * n + k) / n = m := by
      rw [Nat.add_comm, Nat.add_mul_div_right _ _ hn, Nat.div_eq_of_lt hk, Nat.zero_add]
    have h2 : (m * n + k) % n = k := by
      rw [Nat.add_comm, Nat.add_mul_mod_self_right, Nat.mod_eq_of_lt hk]
    simp [List.getElem?_zip_eq_some, List.getElem?_replicate, List.getElem?_range, hk, h1, h2,
      List.zip_eq_zipWith, List.getElem?_zipWith]
  · simp [List.getElem?_eq_none, Nat.le_of_not_lt hk]

/-- The local pairs in the order of their enumeration: the pair number `k` is
`(k / n, k % n)`. -/
theorem Construct_Combinations (m n : Nat) :
    Construct (Combinations m n).1 (Combinations m n).2
      = (List.range (m * n)).map fun k => (k / n, k % n) := by
  unfold Construct Combinations
  induction m with
  | zero => simp
  | succ m ih =>
    simp only [List.range_succ, List.flatMap_append, List.flatMap_cons, List.flatMap_nil,
      List.append_nil]
    rw [List.zip_append (by rw [length_replicate_flatMap, length_range_flatMap]), ih,
      zip_replicate_range, Nat.succ_mul, List.range_add, List.map_append, List.map_map]
    rfl

/-- The pairs `(k / n, k % n)` with `k < m * n` are the pairs `(a, b)` with `a < m`
and `b < n`. -/
theorem mem_range_map_div_mod (m n a b : Nat) :
    (a, b) ∈ (List.range (m * n)).map (fun k => (k / n, k % n)) ↔ a < m ∧ b < n := by
  simp only [List.mem_map, List.mem_range, Prod.mk.injEq]
  constructor
  · rintro ⟨k, hk, h1, h2⟩
    have hn : 0 < n := by
      rcases Nat.eq_zero_or_pos n with h | h
      · subst h; simp at hk
      · exact h
    subst h1 h2
    exact ⟨(Nat.div_lt_iff_lt_mul hn).2 hk, Nat.mod_lt _ hn⟩
  · rintro ⟨ha, hb⟩
    have hn : 0 < n := by omega
    refine ⟨a * n + b, ?_, ?_, ?_⟩
    · calc a * n + b < a * n + n := by omega
        _ = (a + 1) * n := by rw [Nat.succ_mul]
        _ ≤ m * n := Nat.mul_le_mul_right n ha
    · rw [Nat.add_comm, Nat.add_mul_div_right _ _ hn, Nat.div_eq_of_lt hb, Nat.zero_add]
    · rw [Nat.add_comm, Nat.add_mul_mod_self_right, Nat.mod_eq_of_lt hb]

/-- Quotient and remainder grow lexicographically with the number. -/
theorem div_mod_lex_of_lt (n k k' : Nat) (h : k < k') :
    k / n < k' / n ∨ (k / n = k' / n ∧ k % n < k' % n) := by
  have h1 : k / n ≤ k' / n := Nat.div_le_div_right (Nat.le_of_lt h)
  rcases Nat.lt_or_eq_of_le h1 with h2 | h2
  · exact Or.inl h2
  · refine Or.inr ⟨h2, ?_⟩
    have e1 := Nat.div_add_mod k n
    have e2 := Nat.div_add_mod k' n
    rw [h2] at e1
    omega

/-- The enumeration is strictly ascending in the lexicographic order. -/
theorem pairwise_range_map_div_mod (m n : Nat) :
    ((List.range (m * n)).map fun k => (k / n, k % n)).Pairwise
      fun p q => p.1 < q.1 ∨ (p.1 = q.1 ∧ p.2 < q.2) := by
  rw [List.pairwise_map]
  exact List.Pairwise.imp (fun {k k'} h => div_mod_lex_of_lt n k k' h) (List.pairwise_lt_range _)

/-- A position, counted from `i`, of a non-zero entry is collected by the loop of
`Nonzero`. -/
theorem mem_NonzeroFrom_of (v : List Int) (i k : Nat) (x : Int) (hik : i ≤ k)
    (h : v[k - i]? = some x) (hx : x ≠ 0) : k ∈ NonzeroFrom i v := by
  induction v generalizing i with
  | nil => simp at h
  | cons y rest ih =>
    unfold NonzeroFrom
    rcases Nat.eq_or_lt_of_le hik with e | hlt
    · subst e
      simp only [Nat.sub_self, List.getElem?_cons_zero, Option.some.injEq] at h
      subst h
      simp [hx]
    · have e : k - i = (k - (i + 1)) + 1 := by omega
      rw [e, List.getElem?_cons_succ] at h
      have hm := ih (i + 1) hlt h
      split
      · exact List.mem_cons_of_mem _ hm
      · exact hm

/-- The eligible indices are the positions of the non-zero entries. -/
theorem mem_Nonzero_iff (v : List Int) (k : Nat) :
    k ∈ Nonzero v ↔ ∃ x, v[k]? = some x ∧ x ≠ 0 := by
  constructor
  · intro h
    exact (mem_Nonzero v k h).2
  · rintro ⟨x, h, hx⟩
    exact mem_NonzeroFrom_of v 0 k x (Nat.zero_le _) h hx

/-- The loop of `Nonzero` collects its indices in strictly ascending order. -/
theorem pairwise_NonzeroFrom (v : List Int) (i : Nat) :
    (NonzeroFrom i v).Pairwise (· < ·) := by
  induction v generalizing i with
  | nil => simp [NonzeroFrom]
  | cons x rest ih =>
    unfold NonzeroFrom
    split
    · refine List.Pairwise.cons ?_ (ih (i + 1))
      intro k hk
      have := (mem_NonzeroFrom rest (i + 1) k hk).1
      omega
    · exact ih (i + 1)

/-- The loop of `Nonzero` collects at most one index per entry. -/
theorem length_NonzeroFrom_le (v : List Int) (i : Nat) :
    (NonzeroFrom i v).length ≤ v.length := by
  induction v generalizing i with
  | nil => simp [NonzeroFrom]
  | cons x rest ih =>
    unfold NonzeroFrom
    have := ih (i + 1)
    split
    · simp only [List.length_cons]; omega
    · simp only [List.length_cons]; omega

/-- The slice only depends on the values at the indices taken. -/
theorem Take_congr {α : Type} (v w : List α) (idx : List Nat)
    (h : ∀ k ∈ idx, v[k]? = w[k]?) : Take v idx = Take w idx := by
  induction idx with
  | nil => rfl
  | cons k rest ih =>
    have hr : ∀ j ∈ rest, v[j]? = w[j]? := fun j hj => h j (List.mem_cons_of_mem _ hj)
    simp only [Take, h k (List.mem_cons_self _ _), ih hr]

end VecOps

namespace pairselection

open VecOps

variable {R : Type} [LinearOrderedRing R]

/-- C14: for all eligible counts `m` and `n`, the local pairs that `Combinations` and
`Construct` enumerate are the list of the `(k / n, k % n)` for `k < m * n`: there are
`m * n` of them, `(a, b)` occurs if and only if `a < m` and `b < n`, and the list is
strictly ascending in the local-A index first and the local-B index second, so no
pair occurs twice. -/
theorem Construct_Combinations_enumeration (m n : Nat) :
    Construct (Combinations m n).1 (Combinations m n).2
        = (List.range (m * n)).map (fun k => (k / n, k % n)) ∧
      (Construct (Combinations m n).1 (Combinations m n).2).length = m * n ∧
      (∀ a b : Nat, (a, b) ∈ Construct (Combinations m n).1 (Combinations m n).2
        ↔ a < m ∧ b < n) ∧
      (Construct (Combinations m n).1 (Combinations m n).2).Pairwise
        (fun p q => p.1 < q.1 ∨ (p.1 = q.1 ∧ p.2 < q.2)) := by
  rw [Construct_Combinations]
  exact ⟨rfl, by simp, fun a b => mem_range_map_div_mod m n a b,
    pairwise_range_map_div_mod m n⟩

/-- C15: the eligible-index list of a mask is strictly increasing, is not longer than
the mask, and contains `i` if and only if the mask has a non-zero entry at `i`; it
is empty for the empty mask, and it is empty exactly when every entry is zero. -/
theorem Nonzero_eligible_indices (mask : List Int) :
    (Nonzero mask).Pairwise (· < ·) ∧
      (Nonzero mask).length ≤ mask.length ∧
      (∀ i : Nat, i ∈ Nonzero mask ↔ ∃ x, mask[i]? = some x ∧ x ≠ 0) ∧
      Nonzero [] = [] ∧
      (Nonzero mask = [] ↔ ∀ x ∈ mask, x = 0) := by
  refine ⟨pairwise_NonzeroFrom mask 0, length_NonzeroFrom_le mask 0, mem_Nonzero_iff mask,
    rfl, ?_, NonzeroFrom_eq_nil 0 mask⟩
  intro h x hx
  by_contra hne
  obtain ⟨i, hi⟩ := List.mem_iff_getElem?.1 hx
  have : i ∈ Nonzero mask := (mem_Nonzero_iff mask i).2 ⟨x, hi, hne⟩
  rw [h] at this
  simp at this

/-- C17: the predicate of `filterGoodPairs` is true if and only if some entry of the
sequence is neither -1 nor 0; it is false on `[0, 0]`, and on `[-1, k]` it is true
exactly when `k` is neither -1 nor 0. -/
theorem filterGoodPairs_iff (pair : List Int) :
    (filterGoodPairs pair = true ↔ ∃ x ∈ pair, x ≠ -1 ∧ x ≠ 0) ∧
      filterGoodPairs [0, 0] = false ∧
      ∀ k : Int, filterGoodPairs [-1, k] = decide (k ≠ -1 ∧ k ≠ 0) := by
  refine ⟨?_, by decide, ?_⟩
  · simp only [filterGoodPairs, VecOps.Filter, Any, List.any_eq_true, List.mem_filter,
      decide_eq_true_eq]
    constructor
    · rintro ⟨x, ⟨hx, h1⟩, h2⟩
      exact ⟨x, hx, fun e => h1 e.symm, h2⟩
    · rintro ⟨x, hx, h1, h2⟩
      exact ⟨x, ⟨hx, fun e => h1 e.symm⟩, h2⟩
  · intro k
    by_cases h1 : k = -1
    · subst h1; decide
    · by_cases h2 : k = 0
      · subst h2; decide
      · have h3 : ¬ (-1 : Int) = k := fun e => h1 e.symm
        simp [filterGoodPairs, VecOps.Filter, Any, h1, h2, h3, List.filter]

/-- C18: two inputs with the same masks whose attribute vectors agree at every
eligible position give the same result; the entries at the other positions, and
the lengths beyond the eligible positions, play no part. -/
theorem PairSelectionAlgo_masked_out_irrelevant (approxEq : R → R → Bool)
    (taupt tauiso muonpt muoniso taupt' tauiso' muonpt' muoniso' : List R)
    (taumask muonmask : List Int)
    (h1 : ∀ k ∈ Nonzero taumask, taupt[k]? = taupt'[k]?)
    (h2 : ∀ k ∈ Nonzero taumask, tauiso[k]? = tauiso'[k]?)
    (h3 : ∀ k ∈ Nonzero muonmask, muonpt[k]? = muonpt'[k]?)
    (h4 : ∀ k ∈ Nonzero muonmask, muoniso[k]? = muoniso'[k]?) :
    mutau.PairSelectionAlgo approxEq taupt tauiso muonpt muoniso taumask muonmask
      = mutau.PairSelectionAlgo approxEq taupt' tauiso' muonpt' muoniso' taumask
          muonmask := by
  unfold mutau.PairSelectionAlgo
  simp only []
  rw [Take_congr taupt taupt' _ h1, Take_congr tauiso tauiso' _ h2,
    Take_congr muonpt muonpt' _ h3, Take_congr muoniso muoniso' _ h4]

/-- C18 at a concrete input: the tau at position 1 and the muon at position 0 are
masked out, and their attributes differ between the two inputs. -/
theorem PairSelectionAlgo_masked_out_irrelevant_witness :
    (∀ k ∈ Nonzero [1, 0, 1], ([20, 5, 30] : List ℚ)[k]? = ([20, 99, 30] : List ℚ)[k]?) ∧
    (∀ k ∈ Nonzero [1, 0, 1],
      ([0.5, 0.1, 0.7] : List ℚ)[k]? = ([0.5, 0.9, 0.7] : List ℚ)[k]?) ∧
    (∀ k ∈ Nonzero [0, 1], ([1, 10] : List ℚ)[k]? = ([50, 10] : List ℚ)[k]?) ∧
    (∀ k ∈ Nonzero [0, 1], ([0.3, 0.1] : List ℚ)[k]? = ([0.8, 0.1] : List ℚ)[k]?) ∧
    mutau.PairSelectionAlgo (ApproxEqual (1 / 100000 : ℚ)) [20, 5, 30] [0.5, 0.1, 0.7]
        [1, 10] [0.3, 0.1] [1, 0, 1] [0, 1]
      = mutau.PairSelectionAlgo (ApproxEqual (1 / 100000 : ℚ)) [20, 99, 30] [0.5, 0.9, 0.7]
        [50, 10] [0.8, 0.1] [1, 0, 1] [0, 1] := by
  have e1 : Nonzero [1, 0, 1] = [0, 2] := by decide
  have e2 : Nonzero [0, 1] = [1] := by decide
  have h1 : ∀ k ∈ Nonzero [1, 0, 1],
      ([20, 5, 30] : List ℚ)[k]? = ([20, 99, 30] : List ℚ)[k]? := by
    rw [e1]; simp
  have h2 : ∀ k ∈ Nonzero [1, 0, 1],
      ([0.5, 0.1, 0.7] : List ℚ)[k]? = ([0.5, 0.9, 0.7] : List ℚ)[k]? := by
    rw [e1]; simp
  have h3 : ∀ k ∈ Nonzero [0, 1], ([1, 10] : List ℚ)[k]? = ([50, 10] : List ℚ)[k]? := by
    rw [e2]; simp
  have h4 : ∀ k ∈ Nonzero [0, 1], ([0.3, 0.1] : List ℚ)[k]? = ([0.8, 0.1] : List ℚ)[k]? := by
    rw [e2]; simp
  exact ⟨h1, h2, h3, h4,
    PairSelectionAlgo_masked_out_irrelevant (ApproxEqual (1 / 100000 : ℚ)) _ _ _ _ _ _ _ _
      [1, 0, 1] [0, 1] h1 h2 h3 h4⟩

end pairselection

namespace stdsort
variable {α : Type}

/-- A vector with one element is returned as it is, without any comparison. -/
theorem sort_one (comp : α → α → Option Bool) (a : α) : sort comp [a] = some [a] := by
  simp [sort, lg, lg_loop, introsort_loop, S_threshold, final_insertion_sort, insertion_sort,
    insertion_sort_loop]

/-- The insertion sort that `std::sort` runs on three elements, when the comparison of
the third with the second reads outside a vector. -/
theorem sort_three_of_none (comp : α → α → Option Bool) (p0 p1 p2 : α)
    (h10 : comp p1 p0 = some false) (h20 : comp p2 p0 = some false)
    (h21 : comp p2 p1 = none) : sort comp [p0, p1, p2] = none := by
  simp [sort, lg, lg_loop, introsort_loop, S_threshold, final_insertion_sort, insertion_sort,
    insertion_sort_loop, unguarded_linear_insert, unguarded_linear_insert_loop, assign,
    h10, h20, h21]

end stdsort

namespace VecOps

/-- A list without repetition whose only member is `i` is `[i]`. -/
theorem eq_singleton_of_nodup {l : List Nat} {i : Nat} (hn : l.Nodup)
    (h : ∀ k, k ∈ l ↔ k = i) : l = [i] := by
  match l, hn, h with
  | [], _, h => exact absurd ((h i).2 rfl) (List.not_mem_nil i)
  | a :: t, hn, h =>
    have ha : a = i := (h a).1 (List.mem_cons_self _ _)
    have ht : t = [] := by
      apply List.eq_nil_iff_forall_not_mem.2
      intro b hb
      have hbi : b = i := (h b).1 (List.mem_cons_of_mem _ hb)
      have hnot : a ∉ t := (List.nodup_cons.1 hn).1
      exact hnot (by rw [ha, ← hbi]; exact hb)
    rw [ha, ht]

/-- A mask with exactly one non-zero entry, at `i`, has the eligible list `[i]`. -/
theorem Nonzero_eq_singleton (mask : List Int) (i : Nat)
    (hi : ∃ x, mask[i]? = some x ∧ x ≠ 0)
    (huniq : ∀ (k : Nat) (x : Int), mask[k]? = some x → x ≠ 0 → k = i) :
    Nonzero mask = [i] := by
  apply eq_singleton_of_nodup
  · exact (pairwise_NonzeroFrom mask 0).imp (fun h => Nat.ne_of_lt h)
  · intro k
    rw [mem_Nonzero_iff]
    constructor
    · rintro ⟨x, h, hx⟩
      exact huniq k x h hx
    · intro e
      rw [e]
      exact hi

end VecOps

namespace pairselection
open VecOps
variable {R : Type} [LinearOrderedRing R]

/-- The selection, once the eligible lists are not empty and the four slices are
known, fails when the sort fails. -/
theorem PairSelectionAlgo_eq_none_of_sort (approxEq : R → R → Bool)
    (taupt tauiso muonpt muoniso : List R) (taumask muonmask : List Int)
    (selected_taupt selected_tauiso selected_muonpt selected_muoniso : List R)
    (pairs : List (Nat × Nat))
    (h1 : Nonzero taumask ≠ []) (h2 : Nonzero muonmask ≠ [])
    (h3 : Take taupt (Nonzero taumask) = some selected_taupt)
    (h4 : Take tauiso (Nonzero taumask) = some selected_tauiso)
    (h5 : Take muonpt (Nonzero muonmask) = some selected_muonpt)
    (h6 : Take muoniso (Nonzero muonmask) = some selected_muoniso)
    (h7 : Construct (Combinations selected_muonpt.length selected_taupt.length).1
      (Combinations selected_muonpt.length selected_taupt.length).2 = pairs)
    (h8 : stdsort.sort
      (compareForPairs approxEq selected_muonpt (selected_muoniso.map fun x => -1 * x)
        selected_taupt selected_tauiso) pairs = none) :
    mutau.PairSelectionAlgo approxEq taupt tauiso muonpt muoniso taumask muonmask = none := by
  unfold mutau.PairSelectionAlgo
  have e : ¬ ((Nonzero taumask).length = 0 ∨ (Nonzero muonmask).length = 0) := by
    simp [List.length_eq_zero, h1, h2]
  simp only [if_neg e, h3, h4, h5, h6, h7, SortVec, h8, Option.bind_eq_bind,
    Option.some_bind, Option.none_bind]

/-- One eligible muon and one eligible tau: the only local pair is returned. -/
theorem PairSelectionAlgo_one_one (approxEq : R → R → Bool)
    (taupt tauiso muonpt muoniso : List R) (taumask muonmask : List Int)
    (i j : Nat) (q x t y : R)
    (hA : Nonzero muonmask = [i]) (hB : Nonzero taumask = [j])
    (hq : muonpt[i]? = some q) (hx : muoniso[i]? = some x)
    (ht : taupt[j]? = some t) (hy : tauiso[j]? = some y) :
    mutau.PairSelectionAlgo approxEq taupt tauiso muonpt muoniso taumask muonmask
      = some [(i : Int), (j : Int)] :=
  PairSelectionAlgo_eq_of_sorted approxEq _ _ _ _ taumask muonmask [t] [y] [q] [x]
    [(0, 0)] [(0, 0)] (0, 0) i j (by simp [hB]) (by simp [hA])
    (by rw [hB]; exact Take_one _ _ _ ht) (by rw [hB]; exact Take_one _ _ _ hy)
    (by rw [hA]; exact Take_one _ _ _ hq) (by rw [hA]; exact Take_one _ _ _ hx) rfl
    (stdsort.sort_one _ _) rfl (by rw [hA]; rfl) (by rw [hB]; rfl)

/-- One eligible muon and three eligible taus, at the front of their vectors: the
sort compares the pair `(0, 2)` with the pair `(0, 1)`, and the comparison reads the
muon isolation at position 1, outside the vector of length 1. -/
theorem PairSelectionAlgo_one_muon_three_taus (approxEq : R → R → Bool)
    (taupt0 taupt1 taupt2 tauiso0 tauiso1 tauiso2 muonpt0 muoniso0 : R) :
    mutau.PairSelectionAlgo approxEq [taupt0, taupt1, taupt2] [tauiso0, tauiso1, tauiso2]
      [muonpt0] [muoniso0] [1, 1, 1] [1] = none := by
  have h10 : compareForPairs approxEq [muonpt0] ([muoniso0].map fun x => -1 * x)
      [taupt0, taupt1, taupt2] [tauiso0, tauiso1, tauiso2] (0, 1) (0, 0) = some false :=
    compareForPairs_same approxEq _ _ _ _ (0, 1) (0, 0) (-1 * muoniso0) muonpt0 tauiso0
      taupt0 rfl rfl rfl rfl rfl
  have h20 : compareForPairs approxEq [muonpt0] ([muoniso0].map fun x => -1 * x)
      [taupt0, taupt1, taupt2] [tauiso0, tauiso1, tauiso2] (0, 2) (0, 0) = some false :=
    compareForPairs_same approxEq _ _ _ _ (0, 2) (0, 0) (-1 * muoniso0) muonpt0 tauiso0
      taupt0 rfl rfl rfl rfl rfl
  have h21 : compareForPairs approxEq [muonpt0] ([muoniso0].map fun x => -1 * x)
      [taupt0, taupt1, taupt2] [tauiso0, tauiso1, tauiso2] (0, 2) (0, 1) = none := by
    simp [compareForPairs]
  exact PairSelectionAlgo_eq_none_of_sort approxEq _ _ _ _ [1, 1, 1] [1]
    [taupt0, taupt1, taupt2] [tauiso0, tauiso1, tauiso2] [muonpt0] [muoniso0]
    [(0, 0), (0, 1), (0, 2)] (by decide) (by decide) rfl rfl rfl rfl rfl
    (stdsort.sort_three_of_none _ _ _ _ h10 h20 h21)

/-- C12: when each attribute vector is as long as its mask, the muon mask has its only
non-zero entry at `i` and the tau mask has its only non-zero entry at `j`, the
selection returns `[i, j]`, whatever the attribute values are. -/
theorem PairSelectionAlgo_single_candidates (approxEq : R → R → Bool)
    (taupt tauiso muonpt muoniso : List R) (taumask muonmask : List Int) (i j : Nat)
    (htp : taupt.length = taumask.length) (hti : tauiso.length = taumask.length)
    (hmp : muonpt.length = muonmask.length) (hmi : muoniso.length = muonmask.length)
    (hi : ∃ x, muonmask[i]? = some x ∧ x ≠ 0)
    (hi' : ∀ (k : Nat) (x : Int), muonmask[k]? = some x → x ≠ 0 → k = i)
    (hj : ∃ y, taumask[j]? = some y ∧ y ≠ 0)
    (hj' : ∀ (k : Nat) (y : Int), taumask[k]? = some y → y ≠ 0 → k = j) :
    mutau.PairSelectionAlgo approxEq taupt tauiso muonpt muoniso taumask muonmask
      = some [(i : Int), (j : Int)] := by
  have hA := Nonzero_eq_singleton muonmask i hi hi'
  have hB := Nonzero_eq_singleton taumask j hj hj'
  have hil : i < muonmask.length := (mem_Nonzero muonmask i (by rw [hA]; simp)).1
  have hjl : j < taumask.length := (mem_Nonzero taumask j (by rw [hB]; simp)).1
  exact PairSelectionAlgo_one_one approxEq _ _ _ _ _ _ i j _ _ _ _ hA hB
    (List.getElem?_eq_getElem (by rw [hmp]; exact hil))
    (List.getElem?_eq_getElem (by rw [hmi]; exact hil))
    (List.getElem?_eq_getElem (by rw [htp]; exact hjl))
    (List.getElem?_eq_getElem (by rw [hti]; exact hjl))

end pairselection

namespace stdsort
variable {α : Type}

/-- Writing back the value that is there changes nothing. -/
theorem set_getElem_eq (v : List α) (i : Nat) (h : i < v.length) : v.set i v[i] = v := by
  apply List.ext_getElem?
  intro k
  rw [List.getElem?_set]
  split
  · rename_i e
    subst e
    simp [h]
  · rfl

/-- When every comparison fails, `__unguarded_linear_insert` leaves the vector as
it is. -/
theorem unguarded_linear_insert_of_false (comp : α → α → Option Bool) (v : List α) (i : Nat)
    (hi : i + 1 < v.length) (hf : ∀ x ∈ v, ∀ y ∈ v, comp x y = some false) :
    unguarded_linear_insert comp (i + 1) v = some v := by
  have h1 : v[i + 1]? = some v[i + 1] := List.getElem?_eq_getElem hi
  have h0 : v[i]? = some v[i] := List.getElem?_eq_getElem (by omega)
  have hc : comp v[i + 1] v[i] = some false :=
    hf _ (List.getElem_mem _) _ (List.getElem_mem _)
  simp only [unguarded_linear_insert, h1, unguarded_linear_insert_loop, h0, hc, assign,
    if_pos hi, set_getElem_eq v (i + 1) hi]

/-- When every comparison fails, the loop of `__insertion_sort` leaves the vector
as it is. -/
theorem insertion_sort_loop_of_false (comp : α → α → Option Bool) (v : List α)
    (hf : ∀ x ∈ v, ∀ y ∈ v, comp x y = some false) (n i : Nat) (hi : i + 1 + n = v.length) :
    insertion_sort_loop comp 0 n (i + 1) v = some v := by
  induction n generalizing i with
  | zero => rfl
  | succ n ih =>
    have hlt : i + 1 < v.length := by omega
    have h1 : v[i + 1]? = some v[i + 1] := List.getElem?_eq_getElem hlt
    have h0 : v[0]? = some v[0] := List.getElem?_eq_getElem (by omega)
    have hc : comp v[i + 1] v[0] = some false :=
      hf _ (List.getElem_mem _) _ (List.getElem_mem _)
    simp only [insertion_sort_loop, h1, h0, hc,
      unguarded_linear_insert_of_false comp v i hlt hf]
    exact ih (i + 1) (by omega)

/-- When every comparison fails, `std::sort` keeps the order of a vector of at most
16 elements: only the final insertion sort runs. -/
theorem sort_eq_self_of_false (comp : α → α → Option Bool) (v : List α)
    (hlen : v.length ≤ 16) (hf : ∀ x ∈ v, ∀ y ∈ v, comp x y = some false) :
    sort comp v = some v := by
  unfold sort
  split
  · rfl
  · rename_i hne
    have hi : introsort_loop comp (lg v.length * 2) v 0 v.length = some v := by
      cases lg v.length * 2 <;>
        simp [introsort_loop, S_threshold, Nat.not_lt.2 hlen]
    simp only [hi, final_insertion_sort, S_threshold, Nat.sub_zero, Nat.not_lt.2 hlen,
      if_false, insertion_sort]
    rw [if_neg (fun e => hne e.symm)]
    exact insertion_sort_loop_of_false comp v hf (v.length - 1) 0 (by omega)

end stdsort

namespace VecOps

/-- A slice has as many entries as indices were taken. -/
theorem length_Take {α : Type} (v : List α) (idx : List Nat) (r : List α)
    (h : Take v idx = some r) : r.length = idx.length := by
  induction idx generalizing r with
  | nil => simp [Take] at h; subst h; rfl
  | cons k rest ih =>
    unfold Take at h
    split at h
    · rename_i x r' _ hr
      simp only [Option.some.injEq] at h
      subst h
      simp [ih r' hr]
    · simp at h

end VecOps

namespace pairselection
open VecOps
variable {R : Type} [LinearOrderedRing R]

/-- With all reads in range, all values of the first three levels approximately
equal and all `pt` values of the second side equal, the comparison fails. -/
theorem compareForPairs_of_ties (approxEq : R → R → Bool)
    (lep1pt lep1iso lep2pt lep2iso : List R) (value_next value_previous : Nat × Nat)
    (h1 : value_next.1 < lep1iso.length) (h2 : value_previous.2 < lep1iso.length)
    (h3 : value_next.1 < lep1pt.length) (h4 : value_previous.2 < lep1pt.length)
    (h5 : value_next.1 < lep2iso.length) (h6 : value_previous.2 < lep2iso.length)
    (h7 : value_next.1 < lep2pt.length) (h8 : value_previous.2 < lep2pt.length)
    (hiso1 : ∀ a ∈ lep1iso, ∀ b ∈ lep1iso, approxEq a b = true)
    (hpt1 : ∀ a ∈ lep1pt, ∀ b ∈ lep1pt, approxEq a b = true)
    (hiso2 : ∀ a ∈ lep2iso, ∀ b ∈ lep2iso, approxEq a b = true)
    (hpt2 : ∀ a ∈ lep2pt, ∀ b ∈ lep2pt, a = b) :
    compareForPairs approxEq lep1pt lep1iso lep2pt lep2iso value_next value_previous
      = some false := by
  unfold compareForPairs
  simp only [List.getElem?_eq_getElem h1, List.getElem?_eq_getElem h2,
    List.getElem?_eq_getElem h3, List.getElem?_eq_getElem h4, List.getElem?_eq_getElem h5,
    List.getElem?_eq_getElem h6, List.getElem?_eq_getElem h7, List.getElem?_eq_getElem h8,
    Option.bind_eq_bind, Option.some_bind, Option.pure_def,
    hiso1 _ (List.getElem_mem h1) _ (List.getElem_mem h2),
    hpt1 _ (List.getElem_mem h3) _ (List.getElem_mem h4),
    hiso2 _ (List.getElem_mem h5) _ (List.getElem_mem h6)]
  simp [hpt2 _ (List.getElem_mem h7) _ (List.getElem_mem h8)]

/-- With all reads in range the comparison returns an answer. -/
theorem compareForPairs_isSome (approxEq : R → R → Bool)
    (lep1pt lep1iso lep2pt lep2iso : List R) (value_next value_previous : Nat × Nat)
    (h1 : value_next.1 < lep1iso.length) (h2 : value_previous.2 < lep1iso.length)
    (h3 : value_next.1 < lep1pt.length) (h4 : value_previous.2 < lep1pt.length)
    (h5 : value_next.1 < lep2iso.length) (h6 : value_previous.2 < lep2iso.length)
    (h7 : value_next.1 < lep2pt.length) (h8 : value_previous.2 < lep2pt.length) :
    (compareForPairs approxEq lep1pt lep1iso lep2pt lep2iso value_next
      value_previous).isSome = true := by
  unfold compareForPairs
  simp only [List.getElem?_eq_getElem h1, List.getElem?_eq_getElem h2,
    List.getElem?_eq_getElem h3, List.getElem?_eq_getElem h4, List.getElem?_eq_getElem h5,
    List.getElem?_eq_getElem h6, List.getElem?_eq_getElem h7, List.getElem?_eq_getElem h8,
    Option.bind_eq_bind, Option.some_bind, Option.pure_def]
  split_ifs <;> rfl

/-- C11 (amended): when both sides have the same number of eligible candidates, from
1 to 4 (at most 16 local pairs), the eligible muons are pairwise approximately
equal in isolation (with the sign that the code gives it) and in pt, the eligible
taus are pairwise approximately equal in isolation, and the eligible taus have one
and the same pt, then the selection returns the first eligible muon index and the
first eligible tau index. -/
theorem PairSelectionAlgo_ties_keep_first (approxEq : R → R → Bool)
    (taupt tauiso muonpt muoniso : List R) (taumask muonmask : List Int)
    (selected_taupt selected_tauiso selected_muonpt selected_muoniso : List R)
    (hlen : (Nonzero muonmask).length = (Nonzero taumask).length)
    (hpos : Nonzero muonmask ≠ []) (h4 : (Nonzero muonmask).length ≤ 4)
    (hTp : Take taupt (Nonzero taumask) = some selected_taupt)
    (hTi : Take tauiso (Nonzero taumask) = some selected_tauiso)
    (hMp : Take muonpt (Nonzero muonmask) = some selected_muonpt)
    (hMi : Take muoniso (Nonzero muonmask) = some selected_muoniso)
    (hiso1 : ∀ x ∈ selected_muoniso, ∀ x' ∈ selected_muoniso,
      approxEq (-1 * x) (-1 * x') = true)
    (hpt1 : ∀ q ∈ selected_muonpt, ∀ q' ∈ selected_muonpt, approxEq q q' = true)
    (hiso2 : ∀ y ∈ selected_tauiso, ∀ y' ∈ selected_tauiso, approxEq y y' = true)
    (hpt2 : ∀ t ∈ selected_taupt, ∀ t' ∈ selected_taupt, t = t') :
    ∃ a0 b0 : Nat, (Nonzero muonmask)[0]? = some a0 ∧ (Nonzero taumask)[0]? = some b0 ∧
      mutau.PairSelectionAlgo approxEq taupt tauiso muonpt muoniso taumask muonmask
        = some [(a0 : Int), (b0 : Int)] := by
  have lTp := length_Take _ _ _ hTp
  have lTi := length_Take _ _ _ hTi
  have lMp := length_Take _ _ _ hMp
  have lMi := length_Take _ _ _ hMi
  have hk : 0 < (Nonzero muonmask).length := List.length_pos.2 hpos
  have hk' : 0 < (Nonzero taumask).length := by omega
  have hpos' : Nonzero taumask ≠ [] := List.length_pos.1 hk'
  have hsq : selected_muonpt.length * selected_taupt.length ≤ 16 := by
    rw [lMp, lTp, ← hlen]
    exact Nat.mul_le_mul h4 h4
  have hiso1' : ∀ a ∈ selected_muoniso.map (fun x => -1 * x),
      ∀ b ∈ selected_muoniso.map (fun x => -1 * x), approxEq a b = true := by
    intro a ha b hb
    obtain ⟨x, hx, rfl⟩ := List.mem_map.1 ha
    obtain ⟨x', hx', rfl⟩ := List.mem_map.1 hb
    exact hiso1 x hx x' hx'
  have hf : ∀ p ∈ Construct (Combinations selected_muonpt.length selected_taupt.length).1
        (Combinations selected_muonpt.length selected_taupt.length).2,
      ∀ q ∈ Construct (Combinations selected_muonpt.length selected_taupt.length).1
        (Combinations selected_muonpt.length selected_taupt.length).2,
      compareForPairs approxEq selected_muonpt (selected_muoniso.map fun x => -1 * x)
        selected_taupt selected_tauiso p q = some false := by
    intro p hp q hq
    rw [Construct_Combinations] at hp hq
    have hp' := (mem_range_map_div_mod _ _ p.1 p.2).1 hp
    have hq' := (mem_range_map_div_mod _ _ q.1 q.2).1 hq
    apply compareForPairs_of_ties approxEq _ _ _ _ p q _ _ _ _ _ _ _ _ hiso1' hpt1 hiso2 hpt2
    all_goals first | omega | (simp only [List.length_map]; omega)
  have hsort := stdsort.sort_eq_self_of_false _ _
    (by rw [Construct_Combinations]; simpa using hsq) hf
  have hhead : (Construct (Combinations selected_muonpt.length selected_taupt.length).1
      (Combinations selected_muonpt.length selected_taupt.length).2)[0]? = some (0, 0) := by
    rw [Construct_Combinations]
    have : 0 < selected_muonpt.length * selected_taupt.length := by
      rw [lMp, lTp]; exact Nat.mul_pos hk hk'
    simp [List.getElem?_range this]
  refine ⟨(Nonzero muonmask)[0], (Nonzero taumask)[0], List.getElem?_eq_getElem hk,
    List.getElem?_eq_getElem hk', ?_⟩
  exact PairSelectionAlgo_eq_of_sorted approxEq _ _ _ _ taumask muonmask _ _ _ _ _ _ (0, 0)
    _ _ hpos' hpos hTp hTi hMp hMi rfl hsort hhead (List.getElem?_eq_getElem hk)
    (List.getElem?_eq_getElem hk')

end pairselection

namespace pairselection
open VecOps

/-- C11 (counterexample): two eligible muons and two eligible taus whose attributes
are equal within the tolerance at all four levels; the tau pt values 20 and 20.0001
are within the tolerance but not equal.  The last level compares them exactly, and
the selection returns `[1, 1]`, not the first eligible pair `[0, 0]`. -/
theorem PairSelectionAlgo_ties_not_first :
    ApproxEqual (1 / 100000 : ℚ) (-1 * 0.1) (-1 * 0.1) = true ∧
    ApproxEqual (1 / 100000 : ℚ) 10 10 = true ∧
    ApproxEqual (1 / 100000 : ℚ) 0.5 0.5 = true ∧
    ApproxEqual (1 / 100000 : ℚ) 20.0001 20 = true ∧
    ApproxEqual (1 / 100000 : ℚ) 20 20.0001 = true ∧
    mutau.PairSelectionAlgo (ApproxEqual (1 / 100000 : ℚ)) [20, 20.0001] [0.5, 0.5]
      [10, 10] [0.1, 0.1] [1, 1] [1, 1] = some [1, 1] := by
  refine ⟨?_, ?_, ?_, ?_, ?_, ?_⟩
  · norm_num [ApproxEqual, abs_of_pos, abs_of_neg, abs_of_nonneg, max_def]
  · norm_num [ApproxEqual, abs_of_pos, abs_of_neg, abs_of_nonneg, max_def]
  · norm_num [ApproxEqual, abs_of_pos, abs_of_neg, abs_of_nonneg, max_def]
  · norm_num [ApproxEqual, abs_of_pos, abs_of_neg, abs_of_nonneg, max_def]
  · norm_num [ApproxEqual, abs_of_pos, abs_of_neg, abs_of_nonneg, max_def]
  have hT : compareForPairs (ApproxEqual (1 / 100000 : ℚ)) [10, 10]
      ([0.1, 0.1].map fun x => -1 * x) [20, 20.0001] [0.5, 0.5] (1, 0) (0, 0)
      = some true := by
    norm_num [compareForPairs, ApproxEqual, abs_of_pos, abs_of_neg, abs_of_nonneg,
      max_def]
  exact PairSelectionAlgo_two_two (ApproxEqual (1 / 100000 : ℚ)) [20, 20.0001] [0.5, 0.5]
    [10, 10] [0.1, 0.1] [1, 1] [1, 1] 0 1 0 1 10 10 0.1 0.1 20 20.0001 0.5 0.5 true
    (by decide) (by decide) rfl rfl rfl rfl rfl rfl rfl rfl hT

/-- On integers of magnitude up to 1000, taken as rationals, the closeness test with
tolerance `1 / 100000` is equality, as is the test with tolerance 0 on the integers
themselves. -/
theorem ApproxEqual_intCast (a b : ℤ) (ha : |a| ≤ 1000) (hb : |b| ≤ 1000) :
    ApproxEqual (1 / 100000 : ℚ) (a : ℚ) (b : ℚ) = ApproxEqual (0 : ℤ) a b := by
  unfold ApproxEqual
  by_cases h : a = b
  · subst h
    simp
  · have h1 : (1 : ℤ) ≤ |a - b| := Int.one_le_abs (sub_ne_zero.2 h)
    have h2 : ((1 : ℤ) : ℚ) ≤ ((|a - b| : ℤ) : ℚ) := Int.cast_le.2 h1
    have h3 : (((|a| : ℤ)) : ℚ) ≤ 1000 := by exact_mod_cast ha
    have h4 : (((|b| : ℤ)) : ℚ) ≤ 1000 := by exact_mod_cast hb
    have h5 : max (1 : ℚ) (max |(a : ℚ)| |(b : ℚ)|) ≤ 1000 := by
      simp only [max_le_iff]
      refine ⟨by norm_num, ?_, ?_⟩
      · simpa using h3
      · simpa using h4
    have lhs : ¬ (|(a : ℚ) - (b : ℚ)| ≤ 1 / 100000 * max 1 (max |(a : ℚ)| |(b : ℚ)|)) := by
      intro hle
      have : (1 : ℚ) ≤ |(a : ℚ) - (b : ℚ)| := by
        have := h2
        push_cast at this
        exact this
      have h6 : (1 / 100000 : ℚ) * max 1 (max |(a : ℚ)| |(b : ℚ)|) ≤ 1 / 100000 * 1000 :=
        mul_le_mul_of_nonneg_left h5 (by norm_num)
      linarith
    have rhs : ¬ (|a - b| ≤ 0 * max 1 (max |a| |b|)) := by
      rw [zero_mul]
      omega
    rw [decide_eq_false lhs, decide_eq_false rhs]

/-- On such integer values the comparison is the same whether the values are taken
as rationals, with tolerance `1 / 100000`, or as integers, with tolerance 0. -/
theorem compareForPairs_intCast (lep1pt lep1iso lep2pt lep2iso : List ℤ)
    (h1 : ∀ x ∈ lep1pt, |x| ≤ 1000) (h2 : ∀ x ∈ lep1iso, |x| ≤ 1000)
    (h4 : ∀ x ∈ lep2iso, |x| ≤ 1000) :
    compareForPairs (ApproxEqual (1 / 100000 : ℚ)) (lep1pt.map Int.cast)
        (lep1iso.map Int.cast) (lep2pt.map Int.cast) (lep2iso.map Int.cast)
      = compareForPairs (ApproxEqual (0 : ℤ)) lep1pt lep1iso lep2pt lep2iso := by
  funext p q
  unfold compareForPairs
  simp only [List.getElem?_map, Option.bind_eq_bind, Option.pure_def]
  cases e1 : lep1iso[p.1]? with
  | none => rfl
  | some a1 =>
    cases e2 : lep1iso[q.2]? with
    | none => rfl
    | some b1 =>
      have ha1 := h2 a1 (List.getElem?_mem e1)
      have hb1 := h2 b1 (List.getElem?_mem e2)
      simp only [Option.map_some', Option.some_bind, ApproxEqual_intCast a1 b1 ha1 hb1,
        Int.cast_lt, gt_iff_lt]
      cases ApproxEqual (0 : ℤ) a1 b1 with
      | false => rfl
      | true =>
        simp only [Bool.not_true, Bool.false_eq_true, if_false]
        cases e3 : lep1pt[p.1]? with
        | none => rfl
        | some a2 =>
          cases e4 : lep1pt[q.2]? with
          | none => rfl
          | some b2 =>
            have ha2 := h1 a2 (List.getElem?_mem e3)
            have hb2 := h1 b2 (List.getElem?_mem e4)
            simp only [Option.map_some', Option.some_bind,
              ApproxEqual_intCast a2 b2 ha2 hb2, Int.cast_lt]
            cases ApproxEqual (0 : ℤ) a2 b2 with
            | false => rfl
            | true =>
              simp only [Bool.not_true, Bool.false_eq_true, if_false]
              cases e5 : lep2iso[p.1]? with
              | none => rfl
              | some a3 =>
                cases e6 : lep2iso[q.2]? with
                | none => rfl
                | some b3 =>
                  have ha3 := h4 a3 (List.getElem?_mem e5)
                  have hb3 := h4 b3 (List.getElem?_mem e6)
                  simp only [Option.map_some', Option.some_bind,
                    ApproxEqual_intCast a3 b3 ha3 hb3, Int.cast_lt]
                  cases ApproxEqual (0 : ℤ) a3 b3 with
                  | false => rfl
                  | true =>
                    simp only [Bool.not_true, Bool.false_eq_true, if_false]
                    cases e7 : lep2pt[p.1]? with
                    | none => rfl
                    | some a4 =>
                      cases e8 : lep2pt[q.2]? with
                      | none => rfl
                      | some b4 =>
                        simp only [Option.map_some', Option.some_bind, Int.cast_lt]

set_option maxRecDepth 1000000 in
set_option maxHeartbeats 4000000 in
/-- The sort of the 64 local pairs of eight muons and eight taus, on integer values:
it leaves the vector of pairs. -/
theorem sort_eight_by_eight :
    stdsort.sort
      (compareForPairs (ApproxEqual (0 : ℤ)) [10, 10, 10, 10, 10, 10, 10, 10]
        [-3, -6, -4, -7, -8, -1, -5, -2] [20, 20, 20, 20, 20, 20, 20, 20]
        [5, 5, 5, 5, 5, 5, 5, 5])
      (Construct (Combinations 8 8).1 (Combinations 8 8).2) = none := by
  decide

set_option maxRecDepth 1000000 in
/-- The sort of the 25 local pairs of five muons and five taus with equal
attributes, on integer values: the introsort loop runs and moves the pair `(2, 2)`
to the front. -/
theorem sort_five_by_five :
    stdsort.sort
      (compareForPairs (ApproxEqual (0 : ℤ)) [10, 10, 10, 10, 10] [-1, -1, -1, -1, -1]
        [20, 20, 20, 20, 20] [5, 5, 5, 5, 5])
      (Construct (Combinations 5 5).1 (Combinations 5 5).2)
      = some [(2, 2), (4, 4), (4, 3), (4, 2), (4, 1), (4, 0), (3, 4), (3, 3), (3, 2), (3, 1),
          (3, 0), (2, 4), (2, 3), (0, 0), (2, 1), (2, 0), (1, 4), (1, 3), (1, 2), (1, 1),
          (1, 0), (0, 4), (0, 3), (0, 2), (0, 1)] := by
  decide

/-- Five eligible muons and five eligible taus with equal attributes throughout: of
the 25 local pairs, more than the 16 up to which `std::sort` only runs its insertion
sort, the pair `(2, 2)` comes first, not the pair `(0, 0)` enumerated first. -/
theorem PairSelectionAlgo_five_by_five_ties :
    mutau.PairSelectionAlgo (ApproxEqual (1 / 100000 : ℚ)) [20, 20, 20, 20, 20]
      [5, 5, 5, 5, 5] [10, 10, 10, 10, 10] [1, 1, 1, 1, 1] [1, 1, 1, 1, 1] [1, 1, 1, 1, 1]
      = some [2, 2] := by
  have e1 : ([10, 10, 10, 10, 10] : List ℚ)
      = ([10, 10, 10, 10, 10] : List ℤ).map Int.cast := by simp
  have e2 : (([1, 1, 1, 1, 1] : List ℚ).map fun x => -1 * x)
      = ([-1, -1, -1, -1, -1] : List ℤ).map Int.cast := by simp
  have e3 : ([20, 20, 20, 20, 20] : List ℚ)
      = ([20, 20, 20, 20, 20] : List ℤ).map Int.cast := by simp
  have e4 : ([5, 5, 5, 5, 5] : List ℚ) = ([5, 5, 5, 5, 5] : List ℤ).map Int.cast := by simp
  refine PairSelectionAlgo_eq_of_sorted (ApproxEqual (1 / 100000 : ℚ))
    [20, 20, 20, 20, 20] [5, 5, 5, 5, 5] [10, 10, 10, 10, 10] [1, 1, 1, 1, 1]
    [1, 1, 1, 1, 1] [1, 1, 1, 1, 1]
    [20, 20, 20, 20, 20] [5, 5, 5, 5, 5] [10, 10, 10, 10, 10] [1, 1, 1, 1, 1]
    (Construct (Combinations 5 5).1 (Combinations 5 5).2)
    [(2, 2), (4, 4), (4, 3), (4, 2), (4, 1), (4, 0), (3, 4), (3, 3), (3, 2), (3, 1),
      (3, 0), (2, 4), (2, 3), (0, 0), (2, 1), (2, 0), (1, 4), (1, 3), (1, 2), (1, 1),
      (1, 0), (0, 4), (0, 3), (0, 2), (0, 1)] (2, 2) 2 2
    (by decide) (by decide) rfl rfl rfl rfl rfl ?_ rfl rfl rfl
  rw [e2, e1, e3, e4, compareForPairs_intCast _ _ _ _ (by decide) (by decide) (by decide)]
  exact sort_five_by_five

/-- C11 (amended) at a concrete input: the eligible muons are at the positions 1 and
2, the eligible taus at the positions 0 and 2, equal in every attribute. -/
theorem PairSelectionAlgo_ties_keep_first_witness :
    (Nonzero [0, 1, 1]).length = (Nonzero [1, 0, 1]).length ∧
    Nonzero [0, 1, 1] ≠ [] ∧ (Nonzero [0, 1, 1]).length ≤ 4 ∧
    Take ([20, 99, 20] : List ℚ) (Nonzero [1, 0, 1]) = some [20, 20] ∧
    Take ([0.5, 0.9, 0.5] : List ℚ) (Nonzero [1, 0, 1]) = some [0.5, 0.5] ∧
    Take ([99, 10, 10] : List ℚ) (Nonzero [0, 1, 1]) = some [10, 10] ∧
    Take ([0.9, 0.1, 0.1] : List ℚ) (Nonzero [0, 1, 1]) = some [0.1, 0.1] ∧
    mutau.PairSelectionAlgo (ApproxEqual (1 / 100000 : ℚ)) [20, 99, 20] [0.5, 0.9, 0.5]
      [99, 10, 10] [0.9, 0.1, 0.1] [1, 0, 1] [0, 1, 1] = some [1, 0] := by
  have hTp : Take ([20, 99, 20] : List ℚ) (Nonzero [1, 0, 1]) = some [20, 20] := rfl
  have hTi : Take ([0.5, 0.9, 0.5] : List ℚ) (Nonzero [1, 0, 1]) = some [0.5, 0.5] := rfl
  have hMp : Take ([99, 10, 10] : List ℚ) (Nonzero [0, 1, 1]) = some [10, 10] := rfl
  have hMi : Take ([0.9, 0.1, 0.1] : List ℚ) (Nonzero [0, 1, 1]) = some [0.1, 0.1] := rfl
  obtain ⟨a0, b0, ha, hb, h⟩ := PairSelectionAlgo_ties_keep_first
    (ApproxEqual (1 / 100000 : ℚ)) [20, 99, 20] [0.5, 0.9, 0.5] [99, 10, 10] [0.9, 0.1, 0.1]
    [1, 0, 1] [0, 1, 1] [20, 20] [0.5, 0.5] [10, 10] [0.1, 0.1]
    (by decide) (by decide) (by decide) hTp hTi hMp hMi
    (by
      intro x hx x' hx'
      simp only [List.mem_cons, List.mem_singleton, List.not_mem_nil, or_false, or_self]
        at hx hx'
      subst hx hx'
      norm_num [ApproxEqual, abs_of_pos, abs_of_neg, abs_of_nonneg, max_def])
    (by
      intro x hx x' hx'
      simp only [List.mem_cons, List.mem_singleton, List.not_mem_nil, or_false, or_self]
        at hx hx'
      subst hx hx'
      norm_num [ApproxEqual, abs_of_pos, abs_of_neg, abs_of_nonneg, max_def])
    (by
      intro x hx x' hx'
      simp only [List.mem_cons, List.mem_singleton, List.not_mem_nil, or_false, or_self]
        at hx hx'
      subst hx hx'
      norm_num [ApproxEqual, abs_of_pos, abs_of_neg, abs_of_nonneg, max_def])
    (by
      intro x hx x' hx'
      simp only [List.mem_cons, List.mem_singleton, List.not_mem_nil, or_false, or_self]
        at hx hx'
      rw [hx, hx'])
  have e1 : Nonzero [0, 1, 1] = [1, 2] := by decide
  have e2 : Nonzero [1, 0, 1] = [0, 2] := by decide
  rw [e1] at ha
  rw [e2] at hb
  simp only [List.getElem?_cons_zero, Option.some.injEq] at ha hb
  subst ha hb
  exact ⟨by decide, by decide, by decide, hTp, hTi, hMp, hMi, h⟩

/-- C12 at a concrete input: the only eligible muon is at position 2, the only
eligible tau at position 1. -/
theorem PairSelectionAlgo_single_candidates_witness :
    mutau.PairSelectionAlgo (ApproxEqual (1 / 100000 : ℚ)) [20, 30] [0.5, 0.7]
      [10, 11, 12] [0.1, 0.2, 0.3] [0, 1] [0, 0, 1] = some [2, 1] :=
  PairSelectionAlgo_single_candidates (ApproxEqual (1 / 100000 : ℚ)) [20, 30] [0.5, 0.7]
    [10, 11, 12] [0.1, 0.2, 0.3] [0, 1] [0, 0, 1] 2 1 rfl rfl rfl rfl
    ⟨1, rfl, by decide⟩
    (by
      intro k x h hx
      rcases k with _ | _ | _ | k
      · simp at h; exact absurd h.symm hx
      · simp at h; exact absurd h.symm hx
      · rfl
      · simp at h)
    ⟨1, rfl, by decide⟩
    (by
      intro k x h hx
      rcases k with _ | _ | k
      · simp at h; exact absurd h.symm hx
      · rfl
      · simp at h)

/-- C13: one eligible muon and three eligible taus, every vector as long as its mask.
The selection reads the muon isolation at position 1 of a vector of length 1: the
result is the out-of-range outcome, for every closeness test. -/
theorem PairSelectionAlgo_index_out_of_range (approxEq : ℚ → ℚ → Bool) :
    mutau.PairSelectionAlgo approxEq [20, 30, 40] [0.05, 0.2, 0.3] [10] [0.1]
      [1, 1, 1] [1] = none :=
  PairSelectionAlgo_one_muon_three_taus approxEq 20 30 40 0.05 0.2 0.3 10 0.1

/-- C16 (counterexample): `taupt` is longer than the tau mask and `muonpt` is shorter
than the muon mask; the selection returns the pair `[0, 0]`. -/
theorem PairSelectionAlgo_accepts_length_mismatch :
    ([20, 30] : List ℚ).length ≠ ([1] : List Int).length ∧
    ([10] : List ℚ).length ≠ ([1, 0] : List Int).length ∧
    mutau.PairSelectionAlgo (ApproxEqual (1 / 100000 : ℚ)) [20, 30] [0.5] [10] [0.1, 0.2]
      [1] [1, 0] = some [0, 0] :=
  ⟨by decide, by decide,
    PairSelectionAlgo_one_one (ApproxEqual (1 / 100000 : ℚ)) [20, 30] [0.5] [10] [0.1, 0.2]
      [1] [1, 0] 0 0 10 0.1 20 0.5 (by decide) (by decide) rfl rfl rfl rfl⟩

/-- C19: eight eligible muons and eight eligible taus, every vector of length 8, the
muon isolations pairwise different and all other attributes equal.  The comparison
reads in range on every two of the 64 local pairs, and yet the selection ends in the
out-of-range outcome: `std::sort`, run with a comparison that is not a strict weak
ordering, leaves the vector of pairs. -/
theorem PairSelectionAlgo_equal_counts_out_of_range :
    (∀ p ∈ Construct (Combinations 8 8).1 (Combinations 8 8).2,
      ∀ q ∈ Construct (Combinations 8 8).1 (Combinations 8 8).2,
        (compareForPairs (ApproxEqual (1 / 100000 : ℚ)) [10, 10, 10, 10, 10, 10, 10, 10]
          ([3, 6, 4, 7, 8, 1, 5, 2].map fun x => -1 * x) [20, 20, 20, 20, 20, 20, 20, 20]
          [5, 5, 5, 5, 5, 5, 5, 5] p q).isSome = true) ∧
    mutau.PairSelectionAlgo (ApproxEqual (1 / 100000 : ℚ)) [20, 20, 20, 20, 20, 20, 20, 20]
      [5, 5, 5, 5, 5, 5, 5, 5] [10, 10, 10, 10, 10, 10, 10, 10] [3, 6, 4, 7, 8, 1, 5, 2]
      [1, 1, 1, 1, 1, 1, 1, 1] [1, 1, 1, 1, 1, 1, 1, 1] = none := by
  constructor
  · intro p hp q hq
    rw [Construct_Combinations] at hp hq
    have hp' := (mem_range_map_div_mod 8 8 p.1 p.2).1 hp
    have hq' := (mem_range_map_div_mod 8 8 q.1 q.2).1 hq
    apply compareForPairs_isSome
    all_goals simp only [List.length_map, List.length_cons, List.length_nil]
    all_goals omega
  have e1 : ([10, 10, 10, 10, 10, 10, 10, 10] : List ℚ)
      = ([10, 10, 10, 10, 10, 10, 10, 10] : List ℤ).map Int.cast := by simp
  have e2 : (([3, 6, 4, 7, 8, 1, 5, 2] : List ℚ).map fun x => -1 * x)
      = ([-3, -6, -4, -7, -8, -1, -5, -2] : List ℤ).map Int.cast := by simp
  have e3 : ([20, 20, 20, 20, 20, 20, 20, 20] : List ℚ)
      = ([20, 20, 20, 20, 20, 20, 20, 20] : List ℤ).map Int.cast := by simp
  have e4 : ([5, 5, 5, 5, 5, 5, 5, 5] : List ℚ)
      = ([5, 5, 5, 5, 5, 5, 5, 5] : List ℤ).map Int.cast := by simp
  refine PairSelectionAlgo_eq_none_of_sort (ApproxEqual (1 / 100000 : ℚ))
    [20, 20, 20, 20, 20, 20, 20, 20] [5, 5, 5, 5, 5, 5, 5, 5]
    [10, 10, 10, 10, 10, 10, 10, 10] [3, 6, 4, 7, 8, 1, 5, 2]
    [1, 1, 1, 1, 1, 1, 1, 1] [1, 1, 1, 1, 1, 1, 1, 1]
    [20, 20, 20, 20, 20, 20, 20, 20] [5, 5, 5, 5, 5, 5, 5, 5]
    [10, 10, 10, 10, 10, 10, 10, 10] [3, 6, 4, 7, 8, 1, 5, 2]
    (Construct (Combinations 8 8).1 (Combinations 8 8).2) (by decide) (by decide)
    rfl rfl rfl rfl rfl ?_
  rw [e2, e1, e3, e4, compareForPairs_intCast _ _ _ _ (by decide) (by decide) (by decide)]
  exact sort_eight_by_eight

end pairselection

namespace VecOps

/-- The slice exists when every index lies inside the vector. -/
theorem Take_isSome {α : Type} (v : List α) (idx : List Nat)
    (h : ∀ k ∈ idx, k < v.length) : ∃ r, Take v idx = some r := by
  induction idx with
  | nil => exact ⟨[], rfl⟩
  | cons k rest ih =>
    obtain ⟨r, hr⟩ := ih fun j hj => h j (List.mem_cons_of_mem _ hj)
    have hk : k < v.length := h k (List.mem_cons_self _ _)
    exact ⟨v[k] :: r, by simp [Take, List.getElem?_eq_getElem hk, hr]⟩

/-- A vector cut or padded to the length `n` keeps its entries below `n`. -/
theorem getElem?_resized {α : Type} (v : List α) (d : α) (n k : Nat) (hk : k < n)
    (hv : k < v.length) : ((List.range n).map fun j => v.getD j d)[k]? = v[k]? := by
  rw [List.getElem?_map, List.getElem?_range hk, List.getElem?_eq_getElem hv]
  simp [List.getD_eq_getElem?_getD, List.getElem?_eq_getElem hv]

end VecOps

namespace pairselection

open VecOps

variable {R : Type} [LinearOrderedRing R]

/-- C16 (amended): the selection has no length check.  When every eligible index of a
side lies inside the pt and isolation vectors of that side, whatever the lengths of
these vectors, the four slices are read in range, and the result is the result on a
well-formed input: one with the same masks, attribute vectors as long as their
masks, and the same attribute values at the eligible positions. -/
theorem PairSelectionAlgo_as_on_well_formed (approxEq : R → R → Bool)
    (taupt tauiso muonpt muoniso : List R) (taumask muonmask : List Int)
    (hT : ∀ k ∈ Nonzero taumask, k < taupt.length ∧ k < tauiso.length)
    (hM : ∀ k ∈ Nonzero muonmask, k < muonpt.length ∧ k < muoniso.length) :
    (∃ selected_taupt selected_tauiso selected_muonpt selected_muoniso : List R,
      Take taupt (Nonzero taumask) = some selected_taupt ∧
      Take tauiso (Nonzero taumask) = some selected_tauiso ∧
      Take muonpt (Nonzero muonmask) = some selected_muonpt ∧
      Take muoniso (Nonzero muonmask) = some selected_muoniso) ∧
    ∃ taupt' tauiso' muonpt' muoniso' : List R,
      taupt'.length = taumask.length ∧ tauiso'.length = taumask.length ∧
      muonpt'.length = muonmask.length ∧ muoniso'.length = muonmask.length ∧
      (∀ k ∈ Nonzero taumask, taupt'[k]? = taupt[k]? ∧ tauiso'[k]? = tauiso[k]?) ∧
      (∀ k ∈ Nonzero muonmask, muonpt'[k]? = muonpt[k]? ∧ muoniso'[k]? = muoniso[k]?) ∧
      mutau.PairSelectionAlgo approxEq taupt tauiso muonpt muoniso taumask muonmask
        = mutau.PairSelectionAlgo approxEq taupt' tauiso' muonpt' muoniso' taumask
            muonmask := by
  constructor
  · obtain ⟨a, ha⟩ := Take_isSome taupt (Nonzero taumask) fun k hk => (hT k hk).1
    obtain ⟨b, hb⟩ := Take_isSome tauiso (Nonzero taumask) fun k hk => (hT k hk).2
    obtain ⟨c, hc⟩ := Take_isSome muonpt (Nonzero muonmask) fun k hk => (hM k hk).1
    obtain ⟨d, hd⟩ := Take_isSome muoniso (Nonzero muonmask) fun k hk => (hM k hk).2
    exact ⟨a, b, c, d, ha, hb, hc, hd⟩
  · have h1 : ∀ k ∈ Nonzero taumask,
        ((List.range taumask.length).map fun j => taupt.getD j 0)[k]? = taupt[k]? :=
      fun k hk => getElem?_resized taupt 0 _ k (mem_Nonzero taumask k hk).1 (hT k hk).1
    have h2 : ∀ k ∈ Nonzero taumask,
        ((List.range taumask.length).map fun j => tauiso.getD j 0)[k]? = tauiso[k]? :=
      fun k hk => getElem?_resized tauiso 0 _ k (mem_Nonzero taumask k hk).1 (hT k hk).2
    have h3 : ∀ k ∈ Nonzero muonmask,
        ((List.range muonmask.length).map fun j => muonpt.getD j 0)[k]? = muonpt[k]? :=
      fun k hk => getElem?_resized muonpt 0 _ k (mem_Nonzero muonmask k hk).1 (hM k hk).1
    have h4 : ∀ k ∈ Nonzero muonmask,
        ((List.range muonmask.length).map fun j => muoniso.getD j 0)[k]? = muoniso[k]? :=
      fun k hk => getElem?_resized muoniso 0 _ k (mem_Nonzero muonmask k hk).1 (hM k hk).2
    refine ⟨(List.range taumask.length).map fun j => taupt.getD j 0,
      (List.range taumask.length).map fun j => tauiso.getD j 0,
      (List.range muonmask.length).map fun j => muonpt.getD j 0,
      (List.range muonmask.length).map fun j => muoniso.getD j 0,
      by simp, by simp, by simp, by simp,
      fun k hk => ⟨h1 k hk, h2 k hk⟩, fun k hk => ⟨h3 k hk, h4 k hk⟩, ?_⟩
    unfold mutau.PairSelectionAlgo
    simp only []
    rw [Take_congr _ _ _ h1, Take_congr _ _ _ h2, Take_congr _ _ _ h3, Take_congr _ _ _ h4]

/-- C16 (amended) at a concrete input: `taupt` is longer than the tau mask and
`muonpt` is shorter than the muon mask, the eligible positions lie inside all four
vectors; the pair `[0, 0]` is returned, as on a well-formed input. -/
theorem PairSelectionAlgo_as_on_well_formed_witness :
    ([20, 30] : List ℚ).length ≠ ([1] : List Int).length ∧
    ([10] : List ℚ).length ≠ ([1, 0] : List Int).length ∧
    (∀ k ∈ Nonzero [1], k < ([20, 30] : List ℚ).length ∧ k < ([0.5] : List ℚ).length) ∧
    (∀ k ∈ Nonzero [1, 0], k < ([10] : List ℚ).length ∧ k < ([0.1, 0.2] : List ℚ).length) ∧
    ∃ taupt' tauiso' muonpt' muoniso' : List ℚ,
      taupt'.length = ([1] : List Int).length ∧ tauiso'.length = ([1] : List Int).length ∧
      muonpt'.length = ([1, 0] : List Int).length ∧
      muoniso'.length = ([1, 0] : List Int).length ∧
      mutau.PairSelectionAlgo (ApproxEqual (1 / 100000 : ℚ)) taupt' tauiso' muonpt'
        muoniso' [1] [1, 0] = some [0, 0] := by
  have hT : ∀ k ∈ Nonzero [1],
      k < ([20, 30] : List ℚ).length ∧ k < ([0.5] : List ℚ).length := by decide
  have hM : ∀ k ∈ Nonzero [1, 0],
      k < ([10] : List ℚ).length ∧ k < ([0.1, 0.2] : List ℚ).length := by decide
  have h0 : mutau.PairSelectionAlgo (ApproxEqual (1 / 100000 : ℚ)) [20, 30] [0.5] [10]
      [0.1, 0.2] [1] [1, 0] = some [0, 0] :=
    PairSelectionAlgo_one_one (ApproxEqual (1 / 100000 : ℚ)) [20, 30] [0.5] [10] [0.1, 0.2]
      [1] [1, 0] 0 0 10 0.1 20 0.5 (by decide) (by decide) rfl rfl rfl rfl
  obtain ⟨_, a, b, c, d, h1, h2, h3, h4, _, _, h⟩ :=
    PairSelectionAlgo_as_on_well_formed (ApproxEqual (1 / 100000 : ℚ)) [20, 30] [0.5] [10]
      [0.1, 0.2] [1] [1, 0] hT hM
  exact ⟨by decide, by decide, hT, hM, a, b, c, d, h1, h2, h3, h4, h ▸ h0⟩

end pairselection
